import Mathlib

/-!
# Verification of the room/game round state machine

Shallow embedding of the server logic of the answer-guessing party game
(`src/server/routers/game.ts`, `src/server/routers/room.ts`,
`src/server/services/ai.ts`, schema `src/server/db/schema.ts`).

Modelling conventions:
* The SQLite database is a record of row lists (`DB`); `db.select().where(...)`
  becomes `List.filter`, `.limit(1)` becomes `.head?`, `db.update ... where`
  becomes a `List.map` that rewrites the matching rows, `db.insert` appends.
* Each tRPC handler runs atomically (the sequential linearization of the
  handler's awaits); it either throws (`Except.error`) before mutating or
  returns the mutated database.
* Timestamps (`new Date()`) are a `Nat` parameter `now`; generated cuids are
  `String` parameters supplied by the caller.
* JS numbers that hold scores/ratings are modelled as `ℚ` (the schema stores
  them in `real` columns).
* The external AI service is an oracle parameter.  For the judge
  (`rateGuess`), `none` models a call that throws or hits the 30 s timeout,
  `some none` models a reply whose text parses as `NaN`, and `some (some q)`
  models a reply that `parseFloat`s to the number `q`.
* Event-emitter broadcasts carry no game state and are dropped.
* The `better-sqlite3` connection never enables `PRAGMA foreign_keys`, so
  `ON DELETE cascade` clauses in the schema are inert and deletes do not
  cascade.
-/

inductive RoomStatus
  | lobby | configuring | playing | finished
deriving DecidableEq

inductive PlayerStatus
  | online | away | offline
deriving DecidableEq

inductive GameStatus
  | active | answering | guessing | rating | completed
deriving DecidableEq

/-- Row of the `rooms` table (fields used by the routers). -/
structure Room where
  id : String
  code : String
  status : RoomStatus
  creatorId : String
  currentRound : Nat
  totalRounds : Nat
  roundTimeLimit : Nat
  initialPrompt : String
  updatedAt : Nat
deriving DecidableEq

/-- Row of the `players` table. -/
structure Player where
  id : String
  roomId : String
  name : String
  country : Option String
  sessionId : String
  isCreator : Bool
  lastSeen : Nat
  status : PlayerStatus
  totalScore : ℚ
  isReadyForNextRound : Bool
deriving DecidableEq

/-- Row of the `games` table (one game = one round of a room). -/
structure Game where
  id : String
  roomId : String
  round : Nat
  question : String
  status : GameStatus
  startedAt : Nat
  endedAt : Option Nat
deriving DecidableEq

/-- Row of the `answers` table. -/
structure Answer where
  id : String
  gameId : String
  playerId : String
  answer : String
  isSubmitted : Bool
  submittedAt : Option Nat
  updatedAt : Nat
deriving DecidableEq

/-- Row of the `guesses` table. -/
structure Guess where
  id : String
  gameId : String
  guesserId : String
  targetPlayerId : String
  guess : String
  isSubmitted : Bool
  rating : Option ℚ
  submittedAt : Option Nat
  ratedAt : Option Nat
  updatedAt : Nat
deriving DecidableEq

/-- The database state. -/
structure DB where
  rooms : List Room
  players : List Player
  games : List Game
  answers : List Answer
  guesses : List Guess
deriving DecidableEq

/-- Model of the JS string method `.toUpperCase()` (ASCII range). -/
def jsToUpper (s : String) : String :=
  ⟨s.data.map Char.toUpper⟩

/-- Model of the JS string method `.trim()`: drop leading and trailing
whitespace. -/
def jsTrim (s : String) : String :=
  ⟨((s.data.dropWhile Char.isWhitespace).reverse.dropWhile Char.isWhitespace).reverse⟩

/-- `db.select().from(t).where(p).limit(1)` — first row satisfying `p`. -/
def firstWhere {α : Type} (p : α → Bool) (l : List α) : Option α :=
  (l.filter p).head?

/-- Errors thrown by the handlers (`throw new Error(...)`). -/
inductive Err
  | gameNotFound          -- 'Game not found'
  | roomNotFound          -- 'Room not found'
  | playerNotFound        -- 'Player not found'
  | notAcceptingAnswers   -- 'Not currently accepting answers'
  | notAcceptingGuesses   -- 'Not currently accepting guesses'
  | roundNotCompleted     -- 'Round not yet completed'
  | playerNotInRoom       -- 'Player not in room'
  | roomCreationFailed    -- 'Failed to generate unique room code'
  | roomNotJoinable       -- 'Room is not accepting new players'
  | configForbidden       -- 'Only the room creator can update configuration'
  | configAfterStart      -- 'Cannot update configuration after game has started'
  | startForbidden        -- 'Only the room creator can start the game'
  | alreadyStarted        -- 'Game has already started'
  | kickForbidden         -- 'Only the room creator can kick players'
  | kickSelf              -- 'Cannot kick yourself'
deriving DecidableEq

/-- Outcome of one call to the external judge model, as seen by `rateGuess`
in `src/server/services/ai.ts`: `none` = the `generateText` call threw or the
30-second timeout fired; `some none` = the reply text `parseFloat`ed to `NaN`;
`some (some q)` = the reply text `parseFloat`ed to the number `q`.
The oracle is a function of (originalAnswer, guess, question). -/
def JudgeOracle : Type := String → String → String → Option (Option ℚ)

/-- `rateGuess` (ai.ts 122–178): returns the parsed score clamped by
`Math.min(10, Math.max(1, rating))`, `5` on a `NaN` parse, and `5` when the
call fails or times out (the `catch` branch). -/
def rateGuess (judge : JudgeOracle) (originalAnswer guess question : String) : ℚ :=
  match judge originalAnswer guess question with
  | none => 5
  | some none => 5
  | some (some q) => min 10 (max 1 q)

/-- The rating computed for one guess inside the loop of `startAIRating`
(game.ts 29–46): look the target player's answer up in this game's answers;
when it is missing the default rating is 5, otherwise the judge's rating. -/
def ratingValueFor (judge : JudgeOracle) (gameId question : String)
    (answerRows : List Answer) (g : Guess) : ℚ :=
  match firstWhere (fun a => a.gameId == gameId && a.playerId == g.targetPlayerId) answerRows with
  | none => 5
  | some originalAnswer => rateGuess judge originalAnswer.answer g.guess question

/-- The row update a loop iteration of `startAIRating` performs on the guess
rows whose id matches the iterated guess `g`: store the computed rating and
stamp `ratedAt`. -/
def rateWrite (judge : JudgeOracle) (now : Nat) (gameId question : String)
    (answerRows : List Answer) (g x : Guess) : Guess :=
  { x with rating := some (ratingValueFor judge gameId question answerRows g),
           ratedAt := some now }

/-- One iteration of the rating loop in `startAIRating` (game.ts 26–66):
look up the target player's answer in this game; when it is missing store the
default rating 5, otherwise store the judge's rating; both branches stamp
`ratedAt`.  The update is keyed on the guess row id. -/
def rateOneGuess (judge : JudgeOracle) (now : Nat) (gameId question : String)
    (db : DB) (g : Guess) : DB :=
  { db with guesses := db.guesses.map (fun g2 =>
      if g2.id == g.id then rateWrite judge now gameId question db.answers g g2 else g2) }

/-- One iteration of the score-award loop in `startAIRating` (game.ts 74–85):
`if (guess.rating)` — JS truthiness, so a `null` or `0` rating awards
nothing — then `totalScore = totalScore + rating` for the guesser. -/
def awardPoints (db : DB) (g : Guess) : DB :=
  match g.rating with
  | none => db
  | some q =>
    if q ≠ 0 then
      { db with players := db.players.map (fun p =>
          if p.id == g.guesserId then { p with totalScore := p.totalScore + q } else p) }
    else db

/-- `startAIRating` (game.ts 15–126).  The per-guess work runs under
`Promise.all`; each guess's read-answer/write-rating pair is independent and
keyed on distinct row ids, so the sequential fold over the prefetched
`gameGuesses` list is its linearization.  After all ratings resolve the
score loop runs over the re-fetched guesses, then the game is marked
`completed` with an end timestamp.  In this model no database operation
throws, so the outer `catch` fallback (which also marks the game completed)
is unreachable. -/
def startAIRating (judge : JudgeOracle) (now : Nat) (db : DB) (gameId : String) : DB :=
  let gameGuesses := db.guesses.filter (fun g => g.gameId == gameId)
  match firstWhere (fun gm => gm.id == gameId) db.games with
  | none => db
  | some game =>
    let db1 := gameGuesses.foldl (rateOneGuess judge now gameId game.question) db
    let finalGuesses := db1.guesses.filter (fun g => g.gameId == gameId)
    let db2 := finalGuesses.foldl awardPoints db1
    { db2 with games := db2.games.map (fun gm =>
        if gm.id == gameId then { gm with status := .completed, endedAt := some now } else gm) }

/-- `checkGameProgress` (game.ts 390–425): count the room's players and the
submitted answers and guesses of this game; when both counts reach the player
count, set the game's status to `rating` and run `startAIRating`.  The code
performs no check of the game's current status before transitioning. -/
def checkGameProgress (judge : JudgeOracle) (now : Nat) (db : DB) (gameId : String) :
    Except Err DB :=
  match firstWhere (fun gm => gm.id == gameId) db.games with
  | none => .error .gameNotFound
  | some game =>
    let roomPlayers := db.players.filter (fun p => p.roomId == game.roomId)
    let submittedAnswers := db.answers.filter (fun a => a.gameId == gameId && a.isSubmitted)
    let submittedGuesses := db.guesses.filter (fun g => g.gameId == gameId && g.isSubmitted)
    if submittedAnswers.length ≥ roomPlayers.length ∧
        submittedGuesses.length ≥ roomPlayers.length then
      let db1 : DB := { db with games := db.games.map (fun gm =>
          if gm.id == gameId then { gm with status := .rating } else gm) }
      .ok (startAIRating judge now db1 gameId)
    else
      .ok db

/-- `saveAnswer` (game.ts 273–322): phase-guarded upsert of the caller's
answer.  `input.submit` is an optional boolean; an absent flag behaves as
`false` in both `input.submit || existing.isSubmitted` and
`input.submit ? new Date() : existing.submittedAt`. -/
def saveAnswer (now : Nat) (newId : String) (db : DB)
    (gameId playerId text : String) (submit : Bool) : Except Err DB :=
  match firstWhere (fun gm => gm.id == gameId) db.games with
  | none => .error .gameNotFound
  | some game =>
    if game.status ≠ .answering then .error .notAcceptingAnswers
    else
      match firstWhere (fun a => a.gameId == gameId && a.playerId == playerId) db.answers with
      | some ex =>
        .ok { db with answers := db.answers.map (fun a =>
            if a.id == ex.id then
              { a with answer := jsTrim text,
                       isSubmitted := submit || ex.isSubmitted,
                       submittedAt := if submit then some now else ex.submittedAt,
                       updatedAt := now }
            else a) }
      | none =>
        .ok { db with answers := db.answers ++
            [{ id := newId, gameId := gameId, playerId := playerId,
               answer := jsTrim text, isSubmitted := submit,
               submittedAt := if submit then some now else none,
               updatedAt := now }] }

/-- `saveGuess` (game.ts 333–388): same shape as `saveAnswer`, keyed on
(game, guesser, target). -/
def saveGuess (now : Nat) (newId : String) (db : DB)
    (gameId guesserId targetPlayerId text : String) (submit : Bool) : Except Err DB :=
  match firstWhere (fun gm => gm.id == gameId) db.games with
  | none => .error .gameNotFound
  | some game =>
    if game.status ≠ .answering then .error .notAcceptingGuesses
    else
      match firstWhere (fun g => g.gameId == gameId && g.guesserId == guesserId &&
          g.targetPlayerId == targetPlayerId) db.guesses with
      | some ex =>
        .ok { db with guesses := db.guesses.map (fun g =>
            if g.id == ex.id then
              { g with guess := jsTrim text,
                       isSubmitted := submit || ex.isSubmitted,
                       submittedAt := if submit then some now else ex.submittedAt,
                       updatedAt := now }
            else g) }
      | none =>
        .ok { db with guesses := db.guesses ++
            [{ id := newId, gameId := gameId, guesserId := guesserId,
               targetPlayerId := targetPlayerId, guess := jsTrim text,
               isSubmitted := submit, rating := none,
               submittedAt := if submit then some now else none,
               ratedAt := none, updatedAt := now }] }

/-- Ascending lexicographic comparison of two strings by character code,
the order `a.localeCompare(b)` imposes on the ASCII ids this system
generates (and the order of core `String.lt`). -/
def strLt (a b : String) : Bool :=
  decide (a.data < b.data)

/-- Insertion of one player into a list sorted by ascending id — used to model
`roomPlayers.sort((a, b) => a.id.localeCompare(b.id))`.  Player ids are
distinct (primary keys), so the comparator never ties and any comparison sort
produces this unique ascending permutation. -/
def insertById (p : Player) : List Player → List Player
  | [] => [p]
  | q :: qs => if strLt q.id p.id then q :: insertById p qs else p :: q :: qs

/-- Sort a player list by ascending id (see `insertById`). -/
def sortById : List Player → List Player
  | [] => []
  | p :: ps => insertById p (sortById ps)

/-- `getGuessTarget` (game.ts 427–473): deterministic round-robin assignment.
Returns `none` when the game is unknown, when the room has fewer than two
players, or when the caller is not in the player list (`findIndex === -1`);
otherwise returns the id and name of the player at index
`(i + round % n) % n`, bumped to `(i + 1) % n` when that index is the
caller's own. -/
def getGuessTarget (db : DB) (gameId playerId : String) : Option (String × String) :=
  match firstWhere (fun gm => gm.id == gameId) db.games with
  | none => none
  | some game =>
    let roomPlayers := db.players.filter (fun p => p.roomId == game.roomId)
    if roomPlayers.length < 2 then none
    else
      let sortedPlayers := sortById roomPlayers
      match sortedPlayers.findIdx? (fun p => p.id == playerId) with
      | none => none
      | some currentPlayerIndex =>
        let offset := game.round % sortedPlayers.length
        let targetIndex := (currentPlayerIndex + offset) % sortedPlayers.length
        let finalTargetIndex :=
          if targetIndex == currentPlayerIndex then
            (currentPlayerIndex + 1) % sortedPlayers.length
          else targetIndex
        match sortedPlayers[finalTargetIndex]? with
        | some targetPlayer => some (targetPlayer.id, targetPlayer.name)
        | none => none

/-- One entry of the list built by `getGameResults` (game.ts 491–504).
`player`/`guesser` hold the ids found by `roomPlayers.find`; `guess` and
`rating` go through `|| null`, which maps JS falsy values (an absent guess,
an empty guess string, a zero rating) to `null`; `isRated` is the JS value of
`guess?.rating !== null`, which is `true` when no guess matched the answer
(`undefined !== null`). -/
structure GameResult where
  player : Option String
  answer : String
  guess : Option String
  guesser : Option String
  rating : Option ℚ
  isRated : Bool
deriving DecidableEq

/-- The entry `getGameResults` builds for one answer row. -/
def resultForAnswer (roomPlayers : List Player) (gameGuesses : List Guess)
    (answer : Answer) : GameResult :=
  let player := roomPlayers.find? (fun p => p.id == answer.playerId)
  let guess := gameGuesses.find? (fun g => g.targetPlayerId == answer.playerId)
  let guesser : Option Player := match guess with
    | some g => roomPlayers.find? (fun p => p.id == g.guesserId)
    | none => none
  { player := player.map Player.id
    answer := answer.answer
    guess := match guess with
      | some g => if g.guess == "" then none else some g.guess
      | none => none
    guesser := guesser.map Player.id
    rating := match guess with
      | some g => match g.rating with
        | some q => if q == 0 then none else some q
        | none => none
      | none => none
    isRated := match guess with
      | some g => g.rating.isSome
      | none => true }

/-- `getGameResults` (game.ts 475–507): one entry per answer of the game. -/
def getGameResults (db : DB) (gameId : String) : Except Err (Game × List GameResult) :=
  match firstWhere (fun gm => gm.id == gameId) db.games with
  | none => .error .gameNotFound
  | some game =>
    let gameAnswers := db.answers.filter (fun a => a.gameId == gameId)
    let gameGuesses := db.guesses.filter (fun g => g.gameId == gameId)
    let roomPlayers := db.players.filter (fun p => p.roomId == game.roomId)
    .ok (game, gameAnswers.map (resultForAnswer roomPlayers gameGuesses))

/-- `readyForNextRound` (game.ts 509–573): phase- and membership-guarded;
marks the caller ready, then — when the ready count reaches the player count
and the room has rounds left — advances `currentRound` and resets every room
player's readiness flag. -/
def readyForNextRound (db : DB) (gameId playerId : String) : Except Err DB :=
  match firstWhere (fun gm => gm.id == gameId) db.games with
  | none => .error .gameNotFound
  | some game =>
    if game.status ≠ .completed then .error .roundNotCompleted
    else
      let roomPlayers := db.players.filter (fun p => p.roomId == game.roomId)
      match roomPlayers.find? (fun p => p.id == playerId) with
      | none => .error .playerNotInRoom
      | some _ =>
        let db1 : DB := { db with players := db.players.map (fun p =>
            if p.id == playerId then { p with isReadyForNextRound := true } else p) }
        let readyPlayers := db1.players.filter (fun p =>
            p.roomId == game.roomId && p.isReadyForNextRound)
        if readyPlayers.length ≥ roomPlayers.length then
          match firstWhere (fun r => r.id == game.roomId) db1.rooms with
          | some room =>
            if room.currentRound < room.totalRounds then
              let db2 : DB := { db1 with rooms := db1.rooms.map (fun r =>
                  if r.id == room.id then { r with currentRound := r.currentRound + 1 } else r) }
              .ok { db2 with players := db2.players.map (fun p =>
                  if p.roomId == game.roomId then { p with isReadyForNextRound := false } else p) }
            else .ok db1
          | none => .ok db1
        else .ok db1

/-- `getRoundReadyStatus` (game.ts 575–589): pure read. -/
def getRoundReadyStatus (db : DB) (roomId : String) : Nat × Nat × List String :=
  let roomPlayers := db.players.filter (fun p => p.roomId == roomId)
  let readyPlayers := roomPlayers.filter (fun p => p.isReadyForNextRound)
  let notReadyPlayers := roomPlayers.filter (fun p => not p.isReadyForNextRound)
  (readyPlayers.length, roomPlayers.length, notReadyPlayers.map Player.name)

/-- The code-generation loop in `room.create` (room.ts 25–30), a `do/while`:
generate a code, increment `attempts`, break when no existing room carries the
code, repeat while `attempts < 10`.  `codes i` is the value of the `i`-th call
to `generateRoomCode()` (`i` starting at 0); returns the last generated code
together with the final value of `attempts`. -/
def findRoomCode (codes : Nat → String) (db : DB) (attempts : Nat) : String × Nat :=
  let roomCode := codes attempts
  let att := attempts + 1
  if (db.rooms.filter (fun r => r.code == roomCode)).isEmpty then (roomCode, att)
  else if _h : att < 10 then findRoomCode codes db att
  else (roomCode, att)
termination_by 10 - attempts
decreasing_by omega

/-- `room.create` (room.ts 15–57): after the loop, `if (attempts >= 10)`
throws `'Failed to generate unique room code'`; otherwise the room is
inserted in `lobby` status with the default configuration of the schema and
the caller is inserted as creator.  Returns the new room id and player id. -/
def roomCreate (codes : Nat → String) (newRoomId newPlayerId : String) (now : Nat)
    (db : DB) (playerName sessionId : String) (country : Option String) :
    Except Err (DB × String × String) :=
  let (roomCode, attempts) := findRoomCode codes db 0
  if attempts ≥ 10 then .error .roomCreationFailed
  else
    let room : Room :=
      { id := newRoomId, code := roomCode, status := .lobby, creatorId := newPlayerId,
        currentRound := 0, totalRounds := 3, roundTimeLimit := 120,
        initialPrompt := "Intriguing Hypothetical Scenarios", updatedAt := now }
    let player : Player :=
      { id := newPlayerId, roomId := newRoomId, name := playerName, country := country,
        sessionId := sessionId, isCreator := true, lastSeen := now, status := .online,
        totalScore := 0, isReadyForNextRound := false }
    .ok ({ db with rooms := db.rooms ++ [room], players := db.players ++ [player] },
         newRoomId, newPlayerId)

/-- `room.join` (room.ts 59–108): looks the room up by upper-cased code; only
`lobby` rooms are joinable.  A player with the same session in the room is
treated as a rejoin: name, last-seen and status are refreshed and the
existing id is returned; otherwise a new non-creator player is inserted. -/
def roomJoin (newPlayerId : String) (now : Nat) (db : DB)
    (roomCode playerName sessionId : String) (country : Option String) :
    Except Err (DB × String) :=
  match firstWhere (fun r => r.code == jsToUpper roomCode) db.rooms with
  | none => .error .roomNotFound
  | some room =>
    if room.status ≠ .lobby then .error .roomNotJoinable
    else
      match firstWhere (fun p => p.roomId == room.id && p.sessionId == sessionId) db.players with
      | some ex =>
        .ok ({ db with players := db.players.map (fun p =>
            if p.id == ex.id then
              { p with name := playerName, lastSeen := now, status := .online }
            else p) }, ex.id)
      | none =>
        .ok ({ db with players := db.players ++
            [{ id := newPlayerId, roomId := room.id, name := playerName,
               country := country, sessionId := sessionId, isCreator := false,
               lastSeen := now, status := .online, totalScore := 0,
               isReadyForNextRound := false }] }, newPlayerId)

/-- `room.leave` (room.ts 225–281): a player with prior answers or guesses is
soft-retired to `offline`, otherwise deleted; an emptied room is deleted
(`PRAGMA foreign_keys` is never enabled, so nothing cascades); a departing
creator hands creator status to the first remaining player. -/
def roomLeave (now : Nat) (db : DB) (playerId : String) : Except Err DB :=
  match firstWhere (fun p => p.id == playerId) db.players with
  | none => .error .playerNotFound
  | some player =>
    let playerAnswers := db.answers.filter (fun a => a.playerId == playerId)
    let playerGuesses := db.guesses.filter (fun g => g.guesserId == playerId)
    let hasPlayedRounds := !playerAnswers.isEmpty || !playerGuesses.isEmpty
    let db1 : DB :=
      if hasPlayedRounds then
        { db with players := db.players.map (fun p =>
            if p.id == playerId then { p with status := .offline, lastSeen := now } else p) }
      else
        { db with players := db.players.filter (fun p => !(p.id == playerId)) }
    match firstWhere (fun r => r.id == player.roomId) db1.rooms with
    | none => .ok db1
    | some _ =>
      let remainingPlayers := db1.players.filter (fun p => p.roomId == player.roomId)
      if remainingPlayers.isEmpty then
        .ok { db1 with rooms := db1.rooms.filter (fun r => !(r.id == player.roomId)) }
      else
        match remainingPlayers.head? with
        | none => .ok db1
        | some first =>
          if player.isCreator then
            .ok { db1 with
              players := db1.players.map (fun p =>
                if p.id == first.id then { p with isCreator := true } else p),
              rooms := db1.rooms.map (fun r =>
                if r.id == player.roomId then { r with creatorId := first.id } else r) }
          else .ok db1

/-- `room.kickPlayer` (room.ts 283–320). -/
def kickPlayer (db : DB) (playerId kickerId : String) : Except Err DB :=
  match firstWhere (fun p => p.id == playerId) db.players with
  | none => .error .playerNotFound
  | some playerToKick =>
    match firstWhere (fun r => r.id == playerToKick.roomId) db.rooms with
    | none => .error .roomNotFound
    | some room =>
      if room.creatorId ≠ kickerId then .error .kickForbidden
      else if playerId == kickerId then .error .kickSelf
      else .ok { db with players := db.players.filter (fun p => !(p.id == playerId)) }

/-- `room.updatePlayerStatus` (room.ts 180–200): heartbeat. -/
def updatePlayerStatus (now : Nat) (db : DB) (playerId : String) : Except Err DB :=
  .ok { db with players := db.players.map (fun p =>
      if p.id == playerId then { p with lastSeen := now, status := .online } else p) }

/-- `room.markPlayerOffline` (room.ts 202–223). -/
def markPlayerOffline (now : Nat) (db : DB) (playerId : String) : Except Err DB :=
  .ok { db with players := db.players.map (fun p =>
      if p.id == playerId then { p with lastSeen := now, status := .offline } else p) }

/-- `game.updateConfig` (game.ts 129–166): creator-only, lobby-only. -/
def updateConfig (now : Nat) (db : DB) (roomId playerId : String)
    (totalRounds roundTimeLimit : Nat) (initialPrompt : String) : Except Err DB :=
  match firstWhere (fun r => r.id == roomId) db.rooms with
  | none => .error .roomNotFound
  | some room =>
    if room.creatorId ≠ playerId then .error .configForbidden
    else if room.status ≠ .lobby then .error .configAfterStart
    else .ok { db with rooms := db.rooms.map (fun r =>
        if r.id == roomId then
          { r with totalRounds := totalRounds, roundTimeLimit := roundTimeLimit,
                   initialPrompt := initialPrompt, updatedAt := now }
        else r) }

/-- `game.startGame` (game.ts 168–201): creator-only, lobby-only; sets the
room to `playing` with `currentRound = 1`. -/
def startGame (now : Nat) (db : DB) (roomId playerId : String) : Except Err DB :=
  match firstWhere (fun r => r.id == roomId) db.rooms with
  | none => .error .roomNotFound
  | some room =>
    if room.creatorId ≠ playerId then .error .startForbidden
    else if room.status ≠ .lobby then .error .alreadyStarted
    else .ok { db with rooms := db.rooms.map (fun r =>
        if r.id == roomId then
          { r with status := .playing, currentRound := 1, updatedAt := now }
        else r) }

/-- `game.getCurrentGame` (game.ts 203–271): when the room is `playing` and
no game row matches the room's `currentRound`, the external generator is
asked for a question (oracle `genQuestion`, applied to the room's theme and
the previous questions of the room, already concatenated from the stream)
and a new game is inserted in `answering` phase.  In this sequential model
the insert never hits the uniqueness conflict, so the conflict-recovery read
(game.ts 249–264) is not taken. -/
def getCurrentGame (genQuestion : String → List String → String) (newGameId : String)
    (now : Nat) (db : DB) (roomId : String) : Except Err (DB × Option Game) :=
  match firstWhere (fun r => r.id == roomId) db.rooms with
  | none => .error .roomNotFound
  | some room =>
    if room.status ≠ .playing then .ok (db, none)
    else
      match firstWhere (fun gm => gm.roomId == roomId && gm.round == room.currentRound)
          db.games with
      | some currentGame => .ok (db, some currentGame)
      | none =>
        let previousQuestions := (db.games.filter (fun gm => gm.roomId == roomId)).map
            Game.question
        let question := genQuestion room.initialPrompt previousQuestions
        let newGame : Game :=
          { id := newGameId, roomId := roomId, round := room.currentRound,
            question := jsTrim question, status := .answering,
            startedAt := now, endedAt := none }
        .ok ({ db with games := db.games ++ [newGame] }, some newGame)

/-- One client-triggered operation of the core (the mutating handlers of the
two routers, plus the lazily-creating read `getCurrentGame`).  Oracle values,
fresh ids and timestamps travel inside the operation. -/
inductive Op
  | create (codes : Nat → String) (newRoomId newPlayerId : String) (now : Nat)
      (playerName sessionId : String) (country : Option String)
  | join (newPlayerId : String) (now : Nat) (roomCode playerName sessionId : String)
      (country : Option String)
  | leave (now : Nat) (playerId : String)
  | kick (playerId kickerId : String)
  | heartbeat (now : Nat) (playerId : String)
  | goOffline (now : Nat) (playerId : String)
  | config (now : Nat) (roomId playerId : String) (totalRounds roundTimeLimit : Nat)
      (initialPrompt : String)
  | start (now : Nat) (roomId playerId : String)
  | currentGame (genQuestion : String → List String → String) (newGameId : String)
      (now : Nat) (roomId : String)
  | answer (now : Nat) (newId : String) (gameId playerId text : String) (submit : Bool)
  | guess (now : Nat) (newId : String) (gameId guesserId targetPlayerId text : String)
      (submit : Bool)
  | progress (judge : JudgeOracle) (now : Nat) (gameId : String)
  | ready (gameId playerId : String)

/-- Apply one operation to the database, discarding return payloads. -/
def applyOp (op : Op) (db : DB) : Except Err DB :=
  match op with
  | .create codes newRoomId newPlayerId now playerName sessionId country =>
    (roomCreate codes newRoomId newPlayerId now db playerName sessionId country).map
      (fun r => r.1)
  | .join newPlayerId now roomCode playerName sessionId country =>
    (roomJoin newPlayerId now db roomCode playerName sessionId country).map (fun r => r.1)
  | .leave now playerId => roomLeave now db playerId
  | .kick playerId kickerId => kickPlayer db playerId kickerId
  | .heartbeat now playerId => updatePlayerStatus now db playerId
  | .goOffline now playerId => markPlayerOffline now db playerId
  | .config now roomId playerId totalRounds roundTimeLimit initialPrompt =>
    updateConfig now db roomId playerId totalRounds roundTimeLimit initialPrompt
  | .start now roomId playerId => startGame now db roomId playerId
  | .currentGame genQuestion newGameId now roomId =>
    (getCurrentGame genQuestion newGameId now db roomId).map (fun r => r.1)
  | .answer now newId gameId playerId text submit =>
    saveAnswer now newId db gameId playerId text submit
  | .guess now newId gameId guesserId targetPlayerId text submit =>
    saveGuess now newId db gameId guesserId targetPlayerId text submit
  | .progress judge now gameId => checkGameProgress judge now db gameId
  | .ready gameId playerId => readyForNextRound db gameId playerId

/-- Rank of a game phase in the forward order
`active → answering → guessing → rating → completed`. -/
def GameStatus.rank : GameStatus → Nat
  | .active => 0
  | .answering => 1
  | .guessing => 2
  | .rating => 3
  | .completed => 4

/-- The last element of `gs` whose id is `xid` (the winner when several loop
iterations write to the same row id; with distinct row ids this is the row
itself). -/
def lastIdMatch (gs : List Guess) (xid : String) : Option Guess :=
  gs.reverse.find? (fun g => g.id == xid)

/-- `gids.foldl` of `startAIRating`: run the rating orchestrator once for
each listed game, left to right. -/
def runRounds (judge : JudgeOracle) (now : Nat) (db : DB) (gids : List String) : DB :=
  gids.foldl (startAIRating judge now) db

/-- What the score loop of `startAIRating` adds to the player `pid` for one
guess row: the rating when the row is the player's own guess and the rating
is set and non-zero (JS truthiness of `if (guess.rating)`), else nothing. -/
def awardValue (g : Guess) (pid : String) : ℚ :=
  if g.guesserId == pid then
    match g.rating with
    | some q => if q ≠ 0 then q else 0
    | none => 0
  else 0

/-- Total score the award loop adds to player `pid` over the guess rows `gs`. -/
def awardSum (gs : List Guess) (pid : String) : ℚ :=
  (gs.map (fun g => awardValue g pid)).sum

/-- Sum of the stored ratings of the guesses authored by `pid` in the games
`gids` (a `none` rating counts 0). -/
def ratingSumFor (db : DB) (pid : String) (gids : List String) : ℚ :=
  ((db.guesses.filter (fun g => g.guesserId == pid && gids.contains g.gameId)).map
    (fun g => g.rating.getD 0)).sum

/-- Insertion into a sorted list of strings in ascending lexicographic
order. -/
def insertString (s : String) : List String → List String
  | [] => [s]
  | t :: ts => if strLt t s then t :: insertString s ts else s :: t :: ts

/-- Ascending lexicographic sort of a string list. -/
def sortStrings : List String → List String
  | [] => []
  | s :: ss => insertString s (sortStrings ss)

/-- Modelled from the spec (§4.2, `getGuessTarget`), as the function of the
lexicographically sorted player-id list, the round number and the caller id
that the spec declares the assignment to be: `offset = roundNumber mod n`,
`target = (i + offset) mod n`, bumped to `(i + 1) mod n` on a self-hit;
nothing when `n < 2`. -/
def specGuessTargetOfIds (sortedIds : List String) (round : Nat) (callerId : String) :
    Option String :=
  if sortedIds.length < 2 then none
  else
    match sortedIds.findIdx? (fun i => i == callerId) with
    | none => none
    | some i =>
      let n := sortedIds.length
      let offset := round % n
      let t := (i + offset) % n
      let f := if t == i then (i + 1) % n else t
      sortedIds[f]?

/-! ### Concrete scenario data used by witnesses and counterexamples -/

/-- Judge oracle of the concrete scenarios: replies 7 for the guess text
"guess one" and 6 for anything else. -/
def exJudge : JudgeOracle :=
  fun _ guess _ => if guess == "guess one" then some (some 7) else some (some 6)

def exRoom : Room :=
  { id := "room1", code := "ABCDE", status := .playing, creatorId := "p1",
    currentRound := 1, totalRounds := 3, roundTimeLimit := 120,
    initialPrompt := "theme", updatedAt := 0 }

def exRoomLobby : Room :=
  { exRoom with status := .lobby, currentRound := 0 }

def exP1 : Player :=
  { id := "p1", roomId := "room1", name := "Alice", country := none,
    sessionId := "s1", isCreator := true, lastSeen := 0, status := .online,
    totalScore := 7, isReadyForNextRound := false }

def exP2 : Player :=
  { id := "p2", roomId := "room1", name := "Bob", country := none,
    sessionId := "s2", isCreator := false, lastSeen := 0, status := .online,
    totalScore := 6, isReadyForNextRound := false }

def exP3 : Player :=
  { id := "p3", roomId := "room1", name := "Cleo", country := none,
    sessionId := "s3", isCreator := false, lastSeen := 0, status := .online,
    totalScore := 0, isReadyForNextRound := false }

def exGameCompleted : Game :=
  { id := "g1", roomId := "room1", round := 1, question := "Q?",
    status := .completed, startedAt := 0, endedAt := some 50 }

def exGameAnswering : Game :=
  { exGameCompleted with status := .answering, endedAt := none }

def exA1 : Answer :=
  { id := "a1", gameId := "g1", playerId := "p1", answer := "answer one",
    isSubmitted := true, submittedAt := some 10, updatedAt := 10 }

def exA2 : Answer :=
  { id := "a2", gameId := "g1", playerId := "p2", answer := "answer two",
    isSubmitted := true, submittedAt := some 11, updatedAt := 11 }

def exG1 : Guess :=
  { id := "u1", gameId := "g1", guesserId := "p1", targetPlayerId := "p2",
    guess := "guess one", isSubmitted := true, rating := some 7,
    submittedAt := some 20, ratedAt := some 40, updatedAt := 20 }

def exG2 : Guess :=
  { id := "u2", gameId := "g1", guesserId := "p2", targetPlayerId := "p1",
    guess := "guess two", isSubmitted := true, rating := some 6,
    submittedAt := some 21, ratedAt := some 41, updatedAt := 21 }

def exG1u : Guess := { exG1 with rating := none, ratedAt := none }

/-- The first guess as the rating loop leaves it when the judge replies 7 at
time 100: the clamped rating and the rated timestamp are stored. -/
def exG1r : Guess :=
  { exG1u with rating := some (min 10 (max 1 (7 : ℚ))), ratedAt := some 100 }

def exG2u : Guess := { exG2 with rating := none, ratedAt := none }

/-- A finished round: both answers and guesses submitted, guesses already
rated 7 and 6, the scores already awarded (`totalScore` 7 and 6), the game
`completed`. -/
def exDBCompleted : DB :=
  { rooms := [exRoom], players := [exP1, exP2], games := [exGameCompleted],
    answers := [exA1, exA2], guesses := [exG1, exG2] }

/-- Mid-round state: game in `answering` phase, both answers and guesses
submitted but not yet rated. -/
def exDBAnswering : DB :=
  { rooms := [exRoom], players := [exP1, exP2], games := [exGameAnswering],
    answers := [exA1, exA2], guesses := [exG1u, exG2u] }

/-- Same mid-round state with zeroed scores, for score-accumulation runs. -/
def exDBZero : DB :=
  { exDBAnswering with players :=
      [{ exP1 with totalScore := 0 }, { exP2 with totalScore := 0 }] }

/-- Three players (listed unsorted) in a playing room with a round-1 game. -/
def exDB3 : DB :=
  { rooms := [exRoom], players := [exP3, exP1, exP2], games := [exGameAnswering],
    answers := [], guesses := [] }

/-- An answer whose player is the target of no guess. -/
def exDBNoGuess : DB :=
  { rooms := [exRoom], players := [exP1, exP2], games := [exGameCompleted],
    answers := [exA1], guesses := [] }

/-- Lobby room with one member, for join scenarios. -/
def exDBLobby : DB :=
  { rooms := [exRoomLobby], players := [exP1], games := [], answers := [],
    guesses := [] }

/-- Completed round where the other player is already ready. -/
def exDBReady : DB :=
  { rooms := [exRoom], players := [exP1, { exP2 with isReadyForNextRound := true }],
    games := [exGameCompleted], answers := [], guesses := [] }

/-- Room-code oracle whose first nine draws collide with an existing room and
whose tenth draw is fresh. -/
def exCodes : Nat → String := fun i => if i < 9 then "AAAAA" else "BBBBB"

/-- One existing room holding the code the first nine draws produce. -/
def exDBRooms : DB :=
  { rooms := [{ exRoomLobby with id := "roomA", code := "AAAAA" }],
    players := [], games := [], answers := [], guesses := [] }

/-- Room-code oracle whose first eight draws collide and whose ninth draw is
fresh. -/
def exCodes8 : Nat → String := fun i => if i < 8 then "AAAAA" else "BBBBB"

/-! ### General lemmas about the query primitives -/

theorem firstWhere_mem {α : Type} {p : α → Bool} {l : List α} {x : α}
    (h : firstWhere p l = some x) : x ∈ l ∧ p x = true := by
  unfold firstWhere at h
  have hx : x ∈ l.filter p := by
    cases hf : l.filter p with
    | nil => simp [hf] at h
    | cons a t => simp [hf] at h; simp [hf, h]
  exact ⟨(List.mem_filter.mp hx).1, (List.mem_filter.mp hx).2⟩

theorem firstWhere_map {α : Type} (f : α → α) (p : α → Bool) (l : List α)
    (hp : ∀ x, p (f x) = p x) :
    firstWhere p (l.map f) = (firstWhere p l).map f := by
  unfold firstWhere
  rw [List.filter_map]
  have : l.filter (p ∘ f) = l.filter p := by
    apply List.filter_congr
    intro x _
    exact hp x
  rw [this, List.head?_map]

theorem firstWhere_eq_none {α : Type} {p : α → Bool} {l : List α}
    (h : ∀ x ∈ l, p x = false) : firstWhere p l = none := by
  unfold firstWhere
  have : l.filter p = [] := by
    apply List.filter_eq_nil_iff.mpr
    intro x hx
    simp [h x hx]
  simp [this]

/-! ### C10 — `getGameResults` rated flag -/

/-- C10 counterexample: in `exDBNoGuess` the answer of player `p1` has no
matching guess, yet the entry `getGameResults` returns for it carries
`isRated = true` together with a `null` rating — the claim asserts
`isRated = false` there, and asserts `isRated` true only when `rating` is
non-null.  (`guess?.rating !== null` evaluates to `true` in JS when `guess`
is `undefined`.) -/
theorem C10_counterexample :
    getGameResults exDBNoGuess "g1" =
      .ok (exGameCompleted,
        [{ player := some "p1", answer := "answer one", guess := none,
           guesser := none, rating := none, isRated := true }]) := by
  rfl

/-- C10 amended: in every entry returned by `getGameResults`, `isRated` is
true iff the answer's matching guess, when one exists, has a non-null
rating; for an Answer with no matching Guess the entry reports
`isRated = true` together with a null rating. -/
theorem C10_amended (db : DB) (gameId : String) (game : Game)
    (entries : List GameResult)
    (h : getGameResults db gameId = .ok (game, entries)) :
    entries = (db.answers.filter (fun a => a.gameId == gameId)).map
        (resultForAnswer (db.players.filter (fun p => p.roomId == game.roomId))
          (db.guesses.filter (fun g => g.gameId == gameId))) ∧
    ∀ a ∈ db.answers.filter (fun a => a.gameId == gameId),
      ((resultForAnswer (db.players.filter (fun p => p.roomId == game.roomId))
          (db.guesses.filter (fun g => g.gameId == gameId)) a).isRated = true ↔
        ∀ g, (db.guesses.filter (fun g => g.gameId == gameId)).find?
            (fun g => g.targetPlayerId == a.playerId) = some g → g.rating.isSome) ∧
      ((db.guesses.filter (fun g => g.gameId == gameId)).find?
          (fun g => g.targetPlayerId == a.playerId) = none →
        (resultForAnswer (db.players.filter (fun p => p.roomId == game.roomId))
          (db.guesses.filter (fun g => g.gameId == gameId)) a).isRated = true ∧
        (resultForAnswer (db.players.filter (fun p => p.roomId == game.roomId))
          (db.guesses.filter (fun g => g.gameId == gameId)) a).rating = none) := by
  unfold getGameResults at h
  cases hg : firstWhere (fun gm => gm.id == gameId) db.games with
  | none => rw [hg] at h; cases h
  | some game' =>
    rw [hg] at h
    simp only [Except.ok.injEq, Prod.mk.injEq] at h
    obtain ⟨hgame, hent⟩ := h
    subst hgame
    constructor
    · exact hent.symm
    · intro a _
      refine ⟨?_, ?_⟩
      · unfold resultForAnswer
        cases hf : (db.guesses.filter (fun g => g.gameId == gameId)).find?
            (fun g => g.targetPlayerId == a.playerId) with
        | none => simp
        | some g0 => simp [hf]
      · intro hf
        unfold resultForAnswer
        simp [hf]

/-- Witness for C10 amended at the concrete no-guess round. -/
theorem C10_amended_witness :
    (resultForAnswer (exDBNoGuess.players.filter (fun p => p.roomId == exGameCompleted.roomId))
      (exDBNoGuess.guesses.filter (fun g => g.gameId == "g1")) exA1).isRated = true ∧
    (resultForAnswer (exDBNoGuess.players.filter (fun p => p.roomId == exGameCompleted.roomId))
      (exDBNoGuess.guesses.filter (fun g => g.gameId == "g1")) exA1).rating = none := by
  have h := (C10_amended exDBNoGuess "g1" exGameCompleted
      ((exDBNoGuess.answers.filter (fun (a : Answer) => a.gameId == "g1")).map
        (resultForAnswer (exDBNoGuess.players.filter (fun p => p.roomId == exGameCompleted.roomId))
          (exDBNoGuess.guesses.filter (fun g => g.gameId == "g1")))) rfl).2 exA1 (by decide)
  exact h.2 (by decide)

/-! ### C7 — room creation and the code-generation loop -/

/-- C7 failing input: against a store whose rooms make the first nine code
draws collide while the tenth draw ("BBBBB") is not in use, `create` throws
`'Failed to generate unique room code'` even though an attempt yielded a code
not already in use — the loop breaks with `attempts = 10` and the success
check `if (attempts >= 10)` then misfires.  The claim ("whenever some attempt
yields a code not already in use, the operation succeeds") describes the
evident intent; a draw that is fresh on any of the first nine attempts does
succeed, as the second half shows for a fresh ninth draw. -/
theorem C7_code_bug :
    (roomCreate exCodes "roomN" "pN" 5 exDBRooms "Dana" "s9" none =
        .error .roomCreationFailed ∧
      exCodes 9 = "BBBBB" ∧
      (exDBRooms.rooms.filter (fun r => r.code == "BBBBB")).isEmpty = true) ∧
    (roomCreate exCodes8 "roomN" "pN" 5 exDBRooms "Dana" "s9" none =
      .ok ({ exDBRooms with
              rooms := exDBRooms.rooms ++
                [{ id := "roomN", code := "BBBBB", status := .lobby, creatorId := "pN",
                   currentRound := 0, totalRounds := 3, roundTimeLimit := 120,
                   initialPrompt := "Intriguing Hypothetical Scenarios", updatedAt := 5 }],
              players := exDBRooms.players ++
                [{ id := "pN", roomId := "roomN", name := "Dana", country := none,
                   sessionId := "s9", isCreator := true, lastSeen := 5, status := .online,
                   totalScore := 0, isReadyForNextRound := false }] },
            "roomN", "pN")) := by
  constructor
  · refine ⟨?_, by decide, by decide⟩
    unfold roomCreate
    simp [findRoomCode, exCodes, exDBRooms, exRoomLobby, exRoom]
  · unfold roomCreate
    simp [findRoomCode, exCodes8, exDBRooms, exRoomLobby, exRoom]

/-! ### Preservation lemmas for the rating orchestrator -/

theorem rateFold_components (judge : JudgeOracle) (now : Nat) (gid q : String) :
    ∀ (gs : List Guess) (db : DB),
      (gs.foldl (rateOneGuess judge now gid q) db).rooms = db.rooms ∧
      (gs.foldl (rateOneGuess judge now gid q) db).players = db.players ∧
      (gs.foldl (rateOneGuess judge now gid q) db).games = db.games ∧
      (gs.foldl (rateOneGuess judge now gid q) db).answers = db.answers := by
  intro gs
  induction gs with
  | nil => intro db; exact ⟨rfl, rfl, rfl, rfl⟩
  | cons g gs ih =>
    intro db
    simpa [List.foldl_cons, rateOneGuess] using ih (rateOneGuess judge now gid q db g)

theorem awardFold_components :
    ∀ (gs : List Guess) (db : DB),
      (gs.foldl awardPoints db).rooms = db.rooms ∧
      (gs.foldl awardPoints db).games = db.games ∧
      (gs.foldl awardPoints db).answers = db.answers ∧
      (gs.foldl awardPoints db).guesses = db.guesses := by
  intro gs
  induction gs with
  | nil => intro db; exact ⟨rfl, rfl, rfl, rfl⟩
  | cons g gs ih =>
    intro db
    have h := ih (awardPoints db g)
    have hcomp : (awardPoints db g).rooms = db.rooms ∧ (awardPoints db g).games = db.games ∧
        (awardPoints db g).answers = db.answers ∧ (awardPoints db g).guesses = db.guesses := by
      unfold awardPoints
      cases g.rating with
      | none => exact ⟨rfl, rfl, rfl, rfl⟩
      | some qq =>
        by_cases hq : qq ≠ 0 <;> simp [hq]
    simp only [List.foldl_cons]
    exact ⟨h.1.trans hcomp.1, h.2.1.trans hcomp.2.1, h.2.2.1.trans hcomp.2.2.1,
      h.2.2.2.trans hcomp.2.2.2⟩

theorem startAIRating_games_eq (judge : JudgeOracle) (now : Nat) (db : DB) (gameId : String)
    (game : Game) (hg : firstWhere (fun gm => gm.id == gameId) db.games = some game) :
    (startAIRating judge now db gameId).games = db.games.map (fun gm =>
      if gm.id == gameId then { gm with status := .completed, endedAt := some now } else gm) := by
  unfold startAIRating
  rw [hg]
  simp only
  have h1 := (rateFold_components judge now gameId game.question
      (db.guesses.filter (fun g => g.gameId == gameId)) db).2.2.1
  have h2 := (awardFold_components
      (((db.guesses.filter (fun g => g.gameId == gameId)).foldl
          (rateOneGuess judge now gameId game.question) db).guesses.filter
        (fun (g : Guess) => g.gameId == gameId))
      ((db.guesses.filter (fun g => g.gameId == gameId)).foldl
          (rateOneGuess judge now gameId game.question) db)).2.1
  rw [h2, h1]

theorem firstWhere_map_found {α : Type} (f : α → α) (p : α → Bool) (l : List α) (x : α)
    (hp : ∀ y, p (f y) = p y) (h : firstWhere p l = some x) :
    firstWhere p (l.map f) = some (f x) := by
  rw [firstWhere_map f p l hp, h]
  rfl

/-! ### C1 — `checkGameProgress` re-entry -/

/-- C1 counterexample: in `exDBCompleted` the round is already `completed`
(both guesses rated, scores 7 and 6 awarded), yet one more call to
`checkGameProgress` re-runs the rating process: the scores double to 14 and
12.  The claim asserts such a call "leaves the phase unchanged and does not
restart the rating process"; the code has no phase guard before
transitioning. -/
theorem C1_counterexample :
    exDBCompleted.games.map Game.status = [GameStatus.completed] ∧
    exDBCompleted.players.map Player.totalScore = [7, 6] ∧
    (checkGameProgress exJudge 200 exDBCompleted "g1").toOption.map
      (fun db => (db.players.map Player.totalScore, db.games.map Game.status)) =
      some ([14, 12], [GameStatus.completed]) := by
  refine ⟨rfl, by norm_num [exDBCompleted, exP1, exP2], ?_⟩
  simp [checkGameProgress, startAIRating, rateOneGuess, awardPoints, firstWhere,
    rateWrite, ratingValueFor, rateGuess, exDBCompleted, exJudge, exRoom, exP1, exP2,
    exGameCompleted, exA1, exA2, exG1, exG2, Except.toOption]
  norm_num
  rw [if_neg (by decide)]

/-- C1 amended: `checkGameProgress` may be invoked any number of times; an
invocation while the submitted-answer or submitted-guess count is below the
player count leaves the database unchanged, and every invocation once both
counts have reached the player count — including re-invocations when the
round is already `rating` or `completed` — runs the rating process and
leaves the round `completed` (re-rating the guesses and re-awarding the
scores, as the counterexample shows). -/
theorem C1_amended (judge : JudgeOracle) (now : Nat) (db : DB) (gameId : String)
    (game : Game) (hg : firstWhere (fun gm => gm.id == gameId) db.games = some game) :
    (¬((db.answers.filter (fun a => a.gameId == gameId && a.isSubmitted)).length ≥
        (db.players.filter (fun p => p.roomId == game.roomId)).length ∧
       (db.guesses.filter (fun g => g.gameId == gameId && g.isSubmitted)).length ≥
        (db.players.filter (fun p => p.roomId == game.roomId)).length) →
      checkGameProgress judge now db gameId = .ok db) ∧
    (((db.answers.filter (fun a => a.gameId == gameId && a.isSubmitted)).length ≥
        (db.players.filter (fun p => p.roomId == game.roomId)).length ∧
       (db.guesses.filter (fun g => g.gameId == gameId && g.isSubmitted)).length ≥
        (db.players.filter (fun p => p.roomId == game.roomId)).length) →
      ∃ db', checkGameProgress judge now db gameId = .ok db' ∧
        ∀ gm ∈ db'.games, gm.id = gameId →
          gm.status = .completed ∧ gm.endedAt = some now) := by
  constructor
  · intro hcond
    unfold checkGameProgress
    rw [hg]
    simp only [ge_iff_le, if_neg hcond]
  · intro hcond
    unfold checkGameProgress
    rw [hg]
    simp only [ge_iff_le, if_pos hcond]
    refine ⟨_, rfl, ?_⟩
    have hfound : firstWhere (fun gm => gm.id == gameId)
        (db.games.map (fun gm => if gm.id == gameId then { gm with status := .rating } else gm)) =
        some (if game.id == gameId then { game with status := GameStatus.rating } else game) := by
      apply firstWhere_map_found _ _ _ _ _ hg
      intro y
      by_cases hy : y.id == gameId <;> simp [hy]
    have hgames := startAIRating_games_eq judge now
      { db with games := db.games.map (fun gm =>
          if gm.id == gameId then { gm with status := .rating } else gm) } gameId _ hfound
    intro gm hm hid
    rw [hgames, List.map_map] at hm
    obtain ⟨x, hx, rfl⟩ := List.mem_map.mp hm
    by_cases hxid : x.id == gameId
    · simp [Function.comp, hxid]
    · exfalso
      simp only [Function.comp, hxid, if_neg] at hid
      simp only [Bool.not_eq_true] at hxid
      rw [if_neg (by simp [hxid])] at hid
      rw [if_neg (by simp [hxid])] at hid
      exact absurd hid (by simpa using hxid)

/-- Witness for C1 amended: with both counts met in `exDBAnswering`, the call
completes the round. -/
theorem C1_amended_witness :
    ∃ db', checkGameProgress exJudge 100 exDBAnswering "g1" = .ok db' ∧
      ∀ gm ∈ db'.games, gm.id = "g1" →
        gm.status = .completed ∧ gm.endedAt = some 100 :=
  (C1_amended exJudge 100 exDBAnswering "g1" exGameAnswering rfl).2 (by decide)

/-! ### C6 — submitted answers and guesses -/

theorem beq_str {a b : String} (h : a == b) : a = b := eq_of_beq h

/-- C6 counterexample: in `exDBAnswering` player `p1`'s answer already has
`isSubmitted = true`, yet a later `saveAnswer` call overwrites its text with
"changed" — the claim asserts the core rejects the mutation or leaves the
content unchanged once the submitted flag is set, but the code only guards on
the round's phase. -/
theorem C6_counterexample :
    exA1.isSubmitted = true ∧
    (saveAnswer 100 "a9" exDBAnswering "g1" "p1" "changed" false).toOption.map
      (fun db => db.answers.map Answer.answer) = some ["changed", "answer two"] := by
  decide

/-- C6 amended: `saveAnswer`/`saveGuess` reject any mutation once the round's
phase is no longer `answering`; while the phase is `answering` the submitted
flag is monotonic (a later save never resets it to false), but the text
content of an already-submitted Answer/Guess is still overwritten by a
subsequent save. -/
theorem C6_amended (now : Nat) (newId : String) (db : DB)
    (gameId pid tid text : String) (submit : Bool) (game : Game)
    (hg : firstWhere (fun gm => gm.id == gameId) db.games = some game)
    (hA : (db.answers.map Answer.id).Nodup)
    (hG : (db.guesses.map Guess.id).Nodup) :
    (game.status ≠ .answering →
      saveAnswer now newId db gameId pid text submit = .error .notAcceptingAnswers ∧
      saveGuess now newId db gameId pid tid text submit = .error .notAcceptingGuesses) ∧
    (∀ db', saveAnswer now newId db gameId pid text submit = .ok db' →
      (∀ (j : Nat) (a : Answer), db.answers[j]? = some a →
        ∃ a' : Answer, db'.answers[j]? = some a' ∧ a'.id = a.id ∧
          (a.isSubmitted = true → a'.isSubmitted = true)) ∧
      (∀ ex, firstWhere (fun a => a.gameId == gameId && a.playerId == pid) db.answers = some ex →
        ∀ (j : Nat) (a' : Answer), db'.answers[j]? = some a' → a'.id = ex.id →
          a'.answer = jsTrim text)) ∧
    (∀ db', saveGuess now newId db gameId pid tid text submit = .ok db' →
      (∀ (j : Nat) (g : Guess), db.guesses[j]? = some g →
        ∃ g' : Guess, db'.guesses[j]? = some g' ∧ g'.id = g.id ∧
          (g.isSubmitted = true → g'.isSubmitted = true)) ∧
      (∀ ex, firstWhere (fun g => g.gameId == gameId && g.guesserId == pid &&
          g.targetPlayerId == tid) db.guesses = some ex →
        ∀ (j : Nat) (g' : Guess), db'.guesses[j]? = some g' → g'.id = ex.id →
          g'.guess = jsTrim text)) := by
  refine ⟨?_, ?_, ?_⟩
  · intro hs
    constructor
    · unfold saveAnswer
      simp only [hg]
      rw [if_pos hs]
    · unfold saveGuess
      simp only [hg]
      rw [if_pos hs]
  · intro db' hok
    unfold saveAnswer at hok
    simp only [hg] at hok
    by_cases hs : game.status ≠ .answering
    · rw [if_pos hs] at hok; cases hok
    rw [if_neg hs] at hok
    cases hex : firstWhere (fun a => a.gameId == gameId && a.playerId == pid) db.answers with
    | some ex =>
      rw [hex] at hok
      simp only [Except.ok.injEq] at hok
      subst hok
      constructor
      · intro j a hj
        refine ⟨(if a.id == ex.id then
            { a with answer := jsTrim text, isSubmitted := submit || ex.isSubmitted,
                     submittedAt := (if submit then some now else ex.submittedAt),
                     updatedAt := now }
          else a), ?_, ?_, ?_⟩
        · show (db.answers.map _)[j]? = _
          rw [List.getElem?_map, hj]
          rfl
        · by_cases hid : a.id == ex.id <;> simp [hid]
        · intro hsub
          by_cases hid : a.id == ex.id
          · have haex : a = ex := by
              have hmem := List.getElem?_mem hj
              have hexmem := (firstWhere_mem hex).1
              exact List.inj_on_of_nodup_map hA hmem hexmem (beq_str hid)
            have hexs : ex.isSubmitted = true := haex ▸ hsub
            show (if (a.id == ex.id) = true then _ else a).isSubmitted = true
            rw [if_pos hid]
            show (submit || ex.isSubmitted) = true
            rw [hexs, Bool.or_true]
          · show (if (a.id == ex.id) = true then _ else a).isSubmitted = true
            rw [if_neg hid]
            exact hsub
      · intro ex' hex' j a' hj' hid'
        obtain rfl : ex = ex' := Option.some.inj hex'
        rw [List.getElem?_map] at hj'
        cases hja : db.answers[j]? with
        | none => rw [hja] at hj'; cases hj'
        | some a0 =>
          rw [hja] at hj'
          simp only [Option.map_some'] at hj'
          obtain rfl := Option.some.inj hj'
          by_cases hid : a0.id == ex.id
          · show (if (a0.id == ex.id) = true then _ else a0).answer = jsTrim text
            rw [if_pos hid]
          · rw [if_neg hid] at hid' ⊢
            exact absurd hid' (by simpa using hid)
    | none =>
      rw [hex] at hok
      simp only [Except.ok.injEq] at hok
      subst hok
      constructor
      · intro j a hj
        refine ⟨a, ?_, rfl, fun h => h⟩
        show (db.answers ++ _)[j]? = some a
        rw [List.getElem?_append]
        have hlen : j < db.answers.length := (List.getElem?_eq_some.mp hj).1
        simp [hlen, hj]
      · intro ex' hex'
        exact Option.noConfusion hex'
  · intro db' hok
    unfold saveGuess at hok
    simp only [hg] at hok
    by_cases hs : game.status ≠ .answering
    · rw [if_pos hs] at hok; cases hok
    rw [if_neg hs] at hok
    cases hex : firstWhere (fun g => g.gameId == gameId && g.guesserId == pid &&
        g.targetPlayerId == tid) db.guesses with
    | some ex =>
      rw [hex] at hok
      simp only [Except.ok.injEq] at hok
      subst hok
      constructor
      · intro j g hj
        refine ⟨(if g.id == ex.id then
            { g with guess := jsTrim text, isSubmitted := submit || ex.isSubmitted,
                     submittedAt := (if submit then some now else ex.submittedAt),
                     updatedAt := now }
          else g), ?_, ?_, ?_⟩
        · show (db.guesses.map _)[j]? = _
          rw [List.getElem?_map, hj]
          rfl
        · by_cases hid : g.id == ex.id <;> simp [hid]
        · intro hsub
          by_cases hid : g.id == ex.id
          · have hgex : g = ex := by
              have hmem := List.getElem?_mem hj
              have hexmem := (firstWhere_mem hex).1
              exact List.inj_on_of_nodup_map hG hmem hexmem (beq_str hid)
            have hexs : ex.isSubmitted = true := hgex ▸ hsub
            show (if (g.id == ex.id) = true then _ else g).isSubmitted = true
            rw [if_pos hid]
            show (submit || ex.isSubmitted) = true
            rw [hexs, Bool.or_true]
          · show (if (g.id == ex.id) = true then _ else g).isSubmitted = true
            rw [if_neg hid]
            exact hsub
      · intro ex' hex' j g' hj' hid'
        obtain rfl : ex = ex' := Option.some.inj hex'
        rw [List.getElem?_map] at hj'
        cases hja : db.guesses[j]? with
        | none => rw [hja] at hj'; cases hj'
        | some g0 =>
          rw [hja] at hj'
          simp only [Option.map_some'] at hj'
          obtain rfl := Option.some.inj hj'
          by_cases hid : g0.id == ex.id
          · show (if (g0.id == ex.id) = true then _ else g0).guess = jsTrim text
            rw [if_pos hid]
          · rw [if_neg hid] at hid' ⊢
            exact absurd hid' (by simpa using hid)
    | none =>
      rw [hex] at hok
      simp only [Except.ok.injEq] at hok
      subst hok
      constructor
      · intro j g hj
        refine ⟨g, ?_, rfl, fun h => h⟩
        show (db.guesses ++ _)[j]? = some g
        rw [List.getElem?_append]
        have hlen : j < db.guesses.length := (List.getElem?_eq_some.mp hj).1
        simp [hlen, hj]
      · intro ex' hex'
        exact Option.noConfusion hex'

/-- Witness for C6 amended: in the completed round both save operations are
rejected with the phase errors. -/
theorem C6_amended_witness :
    saveAnswer 100 "a9" exDBCompleted "g1" "p1" "late" false =
      .error .notAcceptingAnswers ∧
    saveGuess 100 "u9" exDBCompleted "g1" "p1" "p2" "late" false =
      .error .notAcceptingGuesses :=
  (C6_amended 100 "a9" exDBCompleted "g1" "p1" "p2" "late" false exGameCompleted rfl
    (by decide) (by decide)).1 (by decide)

/-! ### C8 — join is free of duplicates per (room, session) -/

theorem firstWhere_none_iff {α : Type} {p : α → Bool} {l : List α} :
    firstWhere p l = none ↔ l.filter p = [] := by
  unfold firstWhere
  exact List.head?_eq_none_iff

theorem pairwise_session_map (f : Player → Player)
    (hf : ∀ p, (f p).roomId = p.roomId ∧ (f p).sessionId = p.sessionId)
    {l : List Player}
    (hl : List.Pairwise
      (fun p1 p2 => ¬(p1.roomId = p2.roomId ∧ p1.sessionId = p2.sessionId)) l) :
    List.Pairwise
      (fun p1 p2 => ¬(p1.roomId = p2.roomId ∧ p1.sessionId = p2.sessionId)) (l.map f) := by
  refine List.Pairwise.map f ?_ hl
  intro a b hab
  rw [(hf a).1, (hf a).2, (hf b).1, (hf b).2]
  exact hab

theorem C8_join_no_duplicate (newId1 newId2 : String) (now1 now2 : Nat) (db : DB)
    (roomCode name1 name2 sessionId : String) (c1 c2 : Option String)
    (hInv : List.Pairwise
      (fun p1 p2 => ¬(p1.roomId = p2.roomId ∧ p1.sessionId = p2.sessionId)) db.players)
    (db1 : DB) (pid1 : String)
    (h1 : roomJoin newId1 now1 db roomCode name1 sessionId c1 = .ok (db1, pid1))
    (db2 : DB) (pid2 : String)
    (h2 : roomJoin newId2 now2 db1 roomCode name2 sessionId c2 = .ok (db2, pid2)) :
    pid2 = pid1 ∧
    db2.players.length = db1.players.length ∧
    List.Pairwise
      (fun p1 p2 => ¬(p1.roomId = p2.roomId ∧ p1.sessionId = p2.sessionId)) db2.players ∧
    ∃ p ∈ db2.players, p.id = pid1 ∧ p.name = name2 ∧ p.status = .online ∧
      p.lastSeen = now2 := by
  unfold roomJoin at h1 h2
  cases hroom : firstWhere (fun r => r.code == jsToUpper roomCode) db.rooms with
  | none => rw [hroom] at h1; exact Except.noConfusion h1
  | some room =>
  simp only [hroom] at h1
  by_cases hst : room.status ≠ .lobby
  · rw [if_pos hst] at h1; cases h1
  rw [if_neg hst] at h1
  cases hex : firstWhere (fun p => p.roomId == room.id && p.sessionId == sessionId)
      db.players with
  | some ex =>
    rw [hex] at h1
    simp only [Except.ok.injEq, Prod.mk.injEq] at h1
    obtain ⟨hdb1, hpid1⟩ := h1
    subst hdb1
    subst hpid1
    dsimp only at h2
    simp only [hroom] at h2
    rw [if_neg hst] at h2
    have hexmem := firstWhere_mem hex
    have hu : firstWhere (fun p => p.roomId == room.id && p.sessionId == sessionId)
        (db.players.map (fun p => if p.id == ex.id then
          { p with name := name1, lastSeen := now1, status := .online } else p)) =
        some (if ex.id == ex.id then
          { ex with name := name1, lastSeen := now1, status := .online } else ex) := by
      apply firstWhere_map_found _ _ _ _ _ hex
      intro y
      by_cases hy : y.id == ex.id <;> simp [hy]
    rw [hu] at h2
    simp only [beq_self_eq_true, if_true] at h2
    simp only [Except.ok.injEq, Prod.mk.injEq] at h2
    obtain ⟨hdb2, hpid2⟩ := h2
    subst hdb2
    refine ⟨by simp [hpid2.symm], by simp, ?_, ?_⟩
    · apply pairwise_session_map
      · intro p
        refine ⟨?_, ?_⟩ <;> (dsimp only; split <;> rfl)
      · apply pairwise_session_map
        · intro p
          refine ⟨?_, ?_⟩ <;> (dsimp only; split <;> rfl)
        · exact hInv
    · refine ⟨_, List.mem_map_of_mem _ (List.mem_map_of_mem _ hexmem.1), ?_, ?_, ?_, ?_⟩ <;>
        simp
  | none =>
    rw [hex] at h1
    simp only [Except.ok.injEq, Prod.mk.injEq] at h1
    obtain ⟨hdb1, hpid1⟩ := h1
    subst hdb1
    subst hpid1
    dsimp only at h2
    simp only [hroom] at h2
    rw [if_neg hst] at h2
    have hfilter : db.players.filter
        (fun p => p.roomId == room.id && p.sessionId == sessionId) = [] :=
      firstWhere_none_iff.mp hex
    unfold firstWhere at h2
    rw [List.filter_append, hfilter] at h2
    simp only [List.nil_append, List.filter_cons, List.filter_nil, beq_self_eq_true,
      Bool.and_self, if_true, List.head?_cons, Except.ok.injEq, Prod.mk.injEq] at h2
    obtain ⟨hdb2, hpid2⟩ := h2
    subst hdb2
    have hnomatch : ∀ p ∈ db.players,
        ¬(p.roomId = room.id ∧ p.sessionId = sessionId) := by
      intro p hp hcon
      have := List.filter_eq_nil_iff.mp hfilter p hp
      simp [hcon.1, hcon.2] at this
    refine ⟨by simp [hpid2.symm], by simp, ?_, ?_⟩
    · apply pairwise_session_map
      · intro p
        refine ⟨?_, ?_⟩ <;> (dsimp only; split <;> rfl)
      · rw [List.pairwise_append]
        refine ⟨hInv, List.pairwise_singleton _ _, ?_⟩
        intro a ha b hb
        simp only [List.mem_singleton] at hb
        subst hb
        intro hcon
        exact hnomatch a ha ⟨hcon.1, hcon.2⟩
    · refine ⟨_, List.mem_map_of_mem _ (List.mem_append_right _ (List.mem_singleton_self _)),
        ?_, ?_, ?_, ?_⟩ <;> simp

/-- Witness for C8 at a concrete double join: the same session joining twice
yields the same player id and no extra player row. -/
theorem C8_witness : ∃ (db1 db2 : DB) (pid1 pid2 : String),
    roomJoin "p9" 5 exDBLobby "ABCDE" "Bob" "s2" none = .ok (db1, pid1) ∧
    roomJoin "p10" 6 db1 "ABCDE" "Bobby" "s2" none = .ok (db2, pid2) ∧
    pid2 = pid1 ∧ db2.players.length = db1.players.length := by
  refine ⟨({ rooms := [exRoomLobby],
             players := [exP1,
               ({ id := "p9", roomId := "room1", name := "Bob", country := none,
                  sessionId := "s2", isCreator := false, lastSeen := 5, status := .online,
                  totalScore := 0, isReadyForNextRound := false } : Player)],
             games := [], answers := [], guesses := [] } : DB),
    ({ rooms := [exRoomLobby],
       players := [exP1,
         ({ id := "p9", roomId := "room1", name := "Bobby", country := none,
            sessionId := "s2", isCreator := false, lastSeen := 6, status := .online,
            totalScore := 0, isReadyForNextRound := false } : Player)],
       games := [], answers := [], guesses := [] } : DB),
    "p9", "p9", by rfl, by rfl, ?_, ?_⟩
  · exact (C8_join_no_duplicate "p9" "p10" 5 6 exDBLobby "ABCDE" "Bob" "Bobby" "s2"
      none none (by decide) _ _ rfl _ _ rfl).1
  · exact (C8_join_no_duplicate "p9" "p10" 5 6 exDBLobby "ABCDE" "Bob" "Bobby" "s2"
      none none (by decide) _ _ rfl _ _ rfl).2.1

theorem filter_and_length_le {α : Type} (p q : α → Bool) (l : List α) :
    (l.filter (fun x => p x && q x)).length ≤ (l.filter p).length := by
  induction l with
  | nil => simp
  | cons x l ih =>
    by_cases hp : p x
    · by_cases hq : q x
      · rw [List.filter_cons_of_pos (by simp [hp, hq]), List.filter_cons_of_pos hp]
        simpa using ih
      · rw [List.filter_cons_of_neg (by simp [hq]), List.filter_cons_of_pos hp]
        simp only [List.length_cons]
        omega
    · rw [List.filter_cons_of_neg (by simp [hp]), List.filter_cons_of_neg (by simp [hp])]
      exact ih

theorem filter_and_length_ge_iff {α : Type} (p q : α → Bool) (l : List α) :
    ((l.filter p).length ≤ (l.filter (fun x => p x && q x)).length) ↔
      (∀ x ∈ l, p x = true → q x = true) := by
  induction l with
  | nil => simp
  | cons x l ih =>
    by_cases hp : p x
    · by_cases hq : q x
      · rw [List.filter_cons_of_pos (p := fun x => p x && q x) (by simp [hp, hq]),
          List.filter_cons_of_pos hp]
        simp only [List.length_cons]
        rw [Nat.succ_le_succ_iff, ih]
        constructor
        · intro h y hy
          cases hy with
          | head => intro _; exact hq
          | tail _ hmem => exact h y hmem
        · intro h y hy
          exact h y (List.mem_cons_of_mem x hy)
      · have hle := filter_and_length_le p q l
        rw [List.filter_cons_of_neg (p := fun x => p x && q x) (by simp [hq]),
          List.filter_cons_of_pos hp]
        simp only [List.length_cons]
        constructor
        · intro h
          omega
        · intro h
          exact absurd (h x (List.mem_cons_self x l) hp) (by simp [hq])
    · rw [List.filter_cons_of_neg (p := fun x => p x && q x) (by simp [hp]),
        List.filter_cons_of_neg (by simp [hp])]
      rw [ih]
      constructor
      · intro h y hy
        cases hy with
        | head => intro hpx; exact absurd hpx (by simp [hp])
        | tail _ hmem => exact h y hmem
      · intro h y hy
        exact h y (List.mem_cons_of_mem x hy)
/-! ### C9 — readiness and round advancement -/

/-- C9: `readyForNextRound` fails when the round is not completed or the
caller is not a room member; otherwise it marks the caller ready, and exactly
when every room player is then ready and `currentRound < totalRounds` it
increments the room's `currentRound` and resets every room player's readiness
flag; otherwise (in particular at the final round) nothing beyond the marking
changes, so `currentRound` never exceeds `totalRounds`. -/
theorem C9_ready_round_advance (db : DB) (gameId playerId : String) (game : Game)
    (hg : firstWhere (fun gm => gm.id == gameId) db.games = some game)
    (hRid : (db.rooms.map Room.id).Nodup) :
    (game.status ≠ .completed →
      readyForNextRound db gameId playerId = .error .roundNotCompleted) ∧
    ((db.players.filter (fun p => p.roomId == game.roomId)).find?
        (fun p => p.id == playerId) = none →
      game.status = .completed →
      readyForNextRound db gameId playerId = .error .playerNotInRoom) ∧
    (∀ p0, (db.players.filter (fun p => p.roomId == game.roomId)).find?
        (fun p => p.id == playerId) = some p0 →
      game.status = .completed →
      ∀ room, firstWhere (fun r => r.id == game.roomId) db.rooms = some room →
      ∃ db', readyForNextRound db gameId playerId = .ok db' ∧
        (((∀ p ∈ db.players, p.roomId = game.roomId → p.id ≠ playerId →
              p.isReadyForNextRound = true) ∧ room.currentRound < room.totalRounds) →
          (∀ r ∈ db'.rooms, r.id = room.id → r.currentRound = room.currentRound + 1) ∧
          (∀ p ∈ db'.players, p.roomId = game.roomId → p.isReadyForNextRound = false)) ∧
        (¬((∀ p ∈ db.players, p.roomId = game.roomId → p.id ≠ playerId →
              p.isReadyForNextRound = true) ∧ room.currentRound < room.totalRounds) →
          db'.rooms = db.rooms ∧
          db'.players = db.players.map (fun p => if p.id == playerId then
            { p with isReadyForNextRound := true } else p)) ∧
        (∀ r ∈ db'.rooms, r.id = room.id →
          room.currentRound ≤ room.totalRounds → r.currentRound ≤ room.totalRounds)) := by
  have hiff : ((db.players.filter (fun p => p.roomId == game.roomId)).length ≤
      ((db.players.map (fun p => if p.id == playerId then
          { p with isReadyForNextRound := true } else p)).filter
        (fun p => p.roomId == game.roomId && p.isReadyForNextRound)).length) ↔
      (∀ p ∈ db.players, p.roomId = game.roomId → p.id ≠ playerId →
        p.isReadyForNextRound = true) := by
    rw [List.filter_map, List.length_map]
    have hcongr : db.players.filter
        ((fun p => p.roomId == game.roomId && p.isReadyForNextRound) ∘
          (fun p => if p.id == playerId then
            { p with isReadyForNextRound := true } else p)) =
        db.players.filter (fun p => (p.roomId == game.roomId) &&
          ((p.id == playerId) || p.isReadyForNextRound)) := by
      apply List.filter_congr
      intro x _
      by_cases hx : x.id == playerId <;> simp [Function.comp, hx]
    rw [hcongr, filter_and_length_ge_iff]
    constructor
    · intro h p hp hrid hneq
      have := h p hp (by simp [hrid])
      simp at this
      rcases this with h1 | h2
      · exact absurd h1 hneq
      · exact h2
    · intro h p hp hrid
      by_cases hid : p.id == playerId
      · simp [hid]
      · have := h p hp (by simpa using hrid) (by simpa using hid)
        simp [this]
  unfold readyForNextRound
  simp only [hg]
  refine ⟨?_, ?_, ?_⟩
  · intro hs
    rw [if_pos hs]
  · intro hfind hs
    rw [if_neg (by simp [hs])]
    simp only [hfind]
  · intro p0 hfind hs room hroom
    rw [if_neg (by simp [hs])]
    simp only [hfind]
    by_cases hall : (∀ p ∈ db.players, p.roomId = game.roomId → p.id ≠ playerId →
        p.isReadyForNextRound = true)
    · by_cases hlt : room.currentRound < room.totalRounds
      · -- advance path
        rw [if_pos (hiff.mpr hall)]
        simp only [hroom]
        rw [if_pos hlt]
        refine ⟨_, rfl, ?_, ?_, ?_⟩
        · intro _
          constructor
          · intro r hr hid
            obtain ⟨x, hx, rfl⟩ := List.mem_map.mp hr
            by_cases hxid : x.id == room.id
            · have hxr : x = room :=
                List.inj_on_of_nodup_map hRid hx (firstWhere_mem hroom).1 (beq_str hxid)
              simp [hxid, hxr]
            · rw [if_neg hxid] at hid ⊢
              exact absurd hid (by simpa using hxid)
          · intro p hp hrid
            obtain ⟨x, hx, rfl⟩ := List.mem_map.mp hp
            by_cases hxrid : x.roomId == game.roomId
            · simp [hxrid]
            · rw [if_neg hxrid] at hrid ⊢
              exact absurd hrid (by simpa using hxrid)
        · intro hcon
          exact absurd ⟨hall, hlt⟩ hcon
        · intro r hr hid _
          obtain ⟨x, hx, rfl⟩ := List.mem_map.mp hr
          by_cases hxid : x.id == room.id
          · have hxr : x = room :=
              List.inj_on_of_nodup_map hRid hx (firstWhere_mem hroom).1 (beq_str hxid)
            simp [hxid, hxr]
            omega
          · rw [if_neg hxid] at hid ⊢
            exact absurd hid (by simpa using hxid)
      · -- all ready but final round: only the marking happens
        rw [if_pos (hiff.mpr hall)]
        simp only [hroom]
        rw [if_neg hlt]
        refine ⟨_, rfl, ?_, ?_, ?_⟩
        · intro hcon
          exact absurd hcon.2 hlt
        · intro _
          exact ⟨rfl, rfl⟩
        · intro r hr hid hle
          have hxr : r = room := by
            have := List.inj_on_of_nodup_map hRid hr (firstWhere_mem hroom).1 hid
            exact this
          rw [hxr]
          exact hle
    · -- not everyone ready: only the marking happens
      rw [if_neg (fun hc => hall (hiff.mp hc))]
      refine ⟨_, rfl, ?_, ?_, ?_⟩
      · intro hcon
        exact absurd hcon.1 hall
      · intro _
        exact ⟨rfl, rfl⟩
      · intro r hr hid hle
        have hxr : r = room :=
          List.inj_on_of_nodup_map hRid hr (firstWhere_mem hroom).1 hid
        rw [hxr]
        exact hle

/-- Witness for C9: in `exDBReady` the second player is already ready, so the
first player's call advances the room to round 2 and resets both flags. -/
theorem C9_witness :
    ∃ db', readyForNextRound exDBReady "g1" "p1" = .ok db' ∧
      (∀ r ∈ db'.rooms, r.id = exRoom.id → r.currentRound = exRoom.currentRound + 1) ∧
      (∀ p ∈ db'.players, p.roomId = exGameCompleted.roomId →
        p.isReadyForNextRound = false) := by
  obtain ⟨db', hok, hadv, _, _⟩ :=
    (C9_ready_round_advance exDBReady "g1" "p1" exGameCompleted rfl (by decide)).2.2
      exP1 (by decide) rfl exRoom rfl
  have h2 := hadv ⟨by decide, by decide⟩
  exact ⟨db', hok, h2.1, h2.2⟩

/-! ### C2 — the rating orchestrator leaves no guess unrated -/

theorem rateWrite_proj (judge : JudgeOracle) (now : Nat) (gid q : String)
    (A : List Answer) (g x : Guess) :
    (rateWrite judge now gid q A g x).id = x.id ∧
    (rateWrite judge now gid q A g x).gameId = x.gameId ∧
    (rateWrite judge now gid q A g x).guesserId = x.guesserId ∧
    (rateWrite judge now gid q A g x).guess = x.guess ∧
    (rateWrite judge now gid q A g x).targetPlayerId = x.targetPlayerId ∧
    (rateWrite judge now gid q A g x).isSubmitted = x.isSubmitted :=
  ⟨rfl, rfl, rfl, rfl, rfl, rfl⟩

theorem rateWrite_rateWrite (judge : JudgeOracle) (now : Nat) (gid q : String)
    (A : List Answer) (g1 g2 x : Guess) :
    rateWrite judge now gid q A g2 (rateWrite judge now gid q A g1 x) =
      rateWrite judge now gid q A g2 x := rfl

theorem lastIdMatch_nil (xid : String) : lastIdMatch [] xid = none := rfl

theorem lastIdMatch_cons (g : Guess) (gs : List Guess) (xid : String) :
    lastIdMatch (g :: gs) xid =
      (lastIdMatch gs xid).or (if g.id == xid then some g else none) := by
  unfold lastIdMatch
  rw [List.reverse_cons, List.find?_append]
  cases h : List.find? (fun g => g.id == xid) gs.reverse with
  | some y => rfl
  | none =>
    simp only [Option.none_orElse, Option.none_or]
    by_cases hx : g.id == xid <;> simp [List.find?, hx]

theorem beq_comm_str (a b : String) : (a == b) = (b == a) := by
  by_cases h : a = b
  · rw [h]
  · rw [beq_eq_false_iff_ne.mpr h, beq_eq_false_iff_ne.mpr (Ne.symm h)]

/-- The rating loop of `startAIRating` as one batch update: every guess row
whose id is written by some iteration receives the rating of the last
iteration writing to it; other rows are untouched.  The answer rows read by
each iteration never change during the loop. -/
theorem rateFold_eq (judge : JudgeOracle) (now : Nat) (gid q : String) :
    ∀ (gs : List Guess) (db : DB),
      gs.foldl (rateOneGuess judge now gid q) db =
        { db with guesses := db.guesses.map (fun x =>
            match lastIdMatch gs x.id with
            | some g => rateWrite judge now gid q db.answers g x
            | none => x) } := by
  intro gs
  induction gs with
  | nil =>
    intro db
    show db = _
    conv_rhs => rw [show (fun (x : Guess) =>
        match lastIdMatch [] x.id with
        | some g => rateWrite judge now gid q db.answers g x
        | none => x) = fun x => x from rfl]
    rw [List.map_id']
  | cons g gs ih =>
    intro db
    rw [List.foldl_cons, ih (rateOneGuess judge now gid q db g)]
    show ({ (rateOneGuess judge now gid q db g) with guesses := _ } : DB) = _
    unfold rateOneGuess
    simp only [List.map_map]
    congr 1
    apply List.map_congr_left
    intro x _
    simp only [Function.comp]
    rw [lastIdMatch_cons]
    have hcomm : (x.id == g.id) = (g.id == x.id) := beq_comm_str _ _
    by_cases hgx : (g.id == x.id) = true
    · have hxg : (x.id == g.id) = true := by rw [hcomm]; exact hgx
      rw [if_pos hxg, if_pos hgx]
      rw [(rateWrite_proj judge now gid q db.answers g x).1]
      cases lastIdMatch gs x.id with
      | some g2 => exact rateWrite_rateWrite judge now gid q db.answers g g2 x
      | none => rfl
    · have hxg : (x.id == g.id) = false := by
        rw [hcomm]
        exact (Bool.not_eq_true _).mp hgx
      rw [if_neg (by rw [hxg]; exact Bool.false_ne_true), if_neg hgx]
      cases lastIdMatch gs x.id <;> rfl
theorem rateGuess_bounds (judge : JudgeOracle) (a g q : String) :
    1 ≤ rateGuess judge a g q ∧ rateGuess judge a g q ≤ 10 := by
  unfold rateGuess
  cases judge a g q with
  | none => norm_num
  | some o =>
    cases o with
    | none => norm_num
    | some r =>
      refine ⟨le_min (by norm_num) (le_max_left 1 r), min_le_left 10 _⟩

theorem ratingValueFor_bounds (judge : JudgeOracle) (gid q : String)
    (A : List Answer) (g : Guess) :
    1 ≤ ratingValueFor judge gid q A g ∧ ratingValueFor judge gid q A g ≤ 10 := by
  unfold ratingValueFor
  cases firstWhere (fun a => a.gameId == gid && a.playerId == g.targetPlayerId) A with
  | none => norm_num
  | some oa => exact rateGuess_bounds judge oa.answer g.guess q

theorem find?_eq_some_of_unique {α : Type} (p : α → Bool) (l : List α) (a : α)
    (ha : a ∈ l) (hpa : p a = true) (huniq : ∀ y ∈ l, p y = true → y = a) :
    l.find? p = some a := by
  induction l with
  | nil => cases ha
  | cons y l ih =>
    by_cases hy : p y = true
    · have hya : y = a := huniq y (List.mem_cons_self y l) hy
      rw [List.find?_cons_of_pos _ hy, hya]
    · rw [List.find?_cons_of_neg _ hy]
      have ha' : a ∈ l := by
        cases ha with
        | head => exact absurd hpa hy
        | tail _ h => exact h
      exact ih ha' (fun y hy hp => huniq y (List.mem_cons_of_mem _ hy) hp)

theorem lastIdMatch_filter_self {L : List Guess} {P : Guess → Bool} {g : Guess}
    (hN : (L.map Guess.id).Nodup) (hmem : g ∈ L) (hP : P g = true) :
    lastIdMatch (L.filter P) g.id = some g := by
  unfold lastIdMatch
  apply find?_eq_some_of_unique
  · rw [List.mem_reverse]
    exact List.mem_filter.mpr ⟨hmem, hP⟩
  · exact beq_self_eq_true _
  · intro y hy hpy
    have hyL : y ∈ L := (List.mem_filter.mp (List.mem_reverse.mp hy)).1
    exact List.inj_on_of_nodup_map hN hyL hmem (beq_str hpy)

theorem lastIdMatch_filter_not {L : List Guess} {P : Guess → Bool} {g : Guess}
    (hN : (L.map Guess.id).Nodup) (hmem : g ∈ L) (hP : P g = false) :
    lastIdMatch (L.filter P) g.id = none := by
  unfold lastIdMatch
  rw [List.find?_eq_none]
  intro y hy
  have hyf := List.mem_filter.mp (List.mem_reverse.mp hy)
  intro hpy
  have : y = g := List.inj_on_of_nodup_map hN hyf.1 hmem (beq_str hpy)
  rw [this] at hyf
  rw [hP] at hyf
  exact Bool.false_ne_true hyf.2
theorem startAIRating_guesses_shape (judge : JudgeOracle) (now : Nat) (db : DB)
    (gameId : String) (game : Game)
    (hg : firstWhere (fun gm => gm.id == gameId) db.games = some game) :
    (startAIRating judge now db gameId).guesses = db.guesses.map (fun x =>
      match lastIdMatch (db.guesses.filter (fun g => g.gameId == gameId)) x.id with
      | some g => rateWrite judge now gameId game.question db.answers g x
      | none => x) := by
  unfold startAIRating
  simp only [hg]
  rw [(awardFold_components _ _).2.2.2]
  rw [rateFold_eq]

/-- C2: after the rating orchestrator finishes, every guess of the round
carries a non-null rating in [1,10] and a rated-timestamp; the judge's parsed
score is stored clamped to 1–10, a failed or timed-out call and a
`NaN`-parsing reply store 5, and (with distinct row ids) a guess whose target
player has no answer in the round is stored as 5. -/
theorem C2_rateRound_no_unrated (judge : JudgeOracle) (now : Nat) (db : DB) (gameId : String)
    (game : Game) (hg : firstWhere (fun gm => gm.id == gameId) db.games = some game) :
    (∀ g' ∈ (startAIRating judge now db gameId).guesses, g'.gameId = gameId →
      ∃ q, g'.rating = some q ∧ 1 ≤ q ∧ q ≤ 10 ∧ g'.ratedAt = some now) ∧
    (∀ oa gu qu, judge oa gu qu = none → rateGuess judge oa gu qu = 5) ∧
    (∀ oa gu qu, judge oa gu qu = some none → rateGuess judge oa gu qu = 5) ∧
    (∀ oa gu qu r, judge oa gu qu = some (some r) →
      rateGuess judge oa gu qu = min 10 (max 1 r)) ∧
    ((db.guesses.map Guess.id).Nodup →
      ∀ g ∈ db.guesses, g.gameId = gameId →
      firstWhere (fun a => a.gameId == gameId && a.playerId == g.targetPlayerId)
        db.answers = none →
      ∀ g' ∈ (startAIRating judge now db gameId).guesses, g'.id = g.id →
        g'.rating = some 5) := by
  refine ⟨?_, ?_, ?_, ?_, ?_⟩
  · intro g' hmem hgid
    rw [startAIRating_guesses_shape judge now db gameId game hg] at hmem
    obtain ⟨x, hx, rfl⟩ := List.mem_map.mp hmem
    cases hm : lastIdMatch (db.guesses.filter (fun g => g.gameId == gameId)) x.id with
    | some g0 =>
      refine ⟨ratingValueFor judge gameId game.question db.answers g0, rfl, ?_, ?_, rfl⟩
      · exact (ratingValueFor_bounds judge gameId game.question db.answers g0).1
      · exact (ratingValueFor_bounds judge gameId game.question db.answers g0).2
    | none =>
      rw [hm] at hgid
      have hgid2 : x.gameId = gameId := hgid
      exfalso
      have hxf : x ∈ db.guesses.filter (fun g => g.gameId == gameId) :=
        List.mem_filter.mpr ⟨hx, by simp [hgid2]⟩
      have := List.find?_eq_none.mp ((by
        unfold lastIdMatch at hm
        exact hm) : (db.guesses.filter (fun g => g.gameId == gameId)).reverse.find?
          (fun g => g.id == x.id) = none) x (List.mem_reverse.mpr hxf)
      simp at this
  · intro oa gu qu h
    unfold rateGuess
    rw [h]
  · intro oa gu qu h
    unfold rateGuess
    rw [h]
  · intro oa gu qu r h
    unfold rateGuess
    rw [h]
  · intro hN g hgmem hgid hans g' hmem hid
    rw [startAIRating_guesses_shape judge now db gameId game hg] at hmem
    obtain ⟨x, hx, rfl⟩ := List.mem_map.mp hmem
    have hxid : x.id = g.id := by
      cases hm : lastIdMatch (db.guesses.filter (fun g => g.gameId == gameId)) x.id with
      | some g0 =>
        rw [hm] at hid
        exact hid
      | none =>
        rw [hm] at hid
        exact hid
    have hxg : x = g := List.inj_on_of_nodup_map hN hx hgmem hxid
    subst hxg
    rw [lastIdMatch_filter_self hN hx (by simp [hgid])]
    show some (ratingValueFor judge gameId game.question db.answers x) = some 5
    unfold ratingValueFor
    rw [hans]

/-- Witness for C2 at the concrete mid-round state: the first guess of the
rated round ends with a rating in range and a rated timestamp. -/
theorem C2_witness :
    ∃ q, exG1r.rating = some q ∧ 1 ≤ q ∧ q ≤ 10 ∧ exG1r.ratedAt = some 100 :=
  (C2_rateRound_no_unrated exJudge 100 exDBAnswering "g1" exGameAnswering rfl).1
    exG1r
    (List.getElem?_mem (show (startAIRating exJudge 100 exDBAnswering "g1").guesses[0]? =
      some exG1r from rfl)) rfl

/-! ### C4 — cumulative score equals the sum of authored ratings -/

theorem player_add_zero (p : Player) : { p with totalScore := p.totalScore + 0 } = p := by
  cases p
  simp

theorem map_id_of_eq {α : Type} (f : α → α) (l : List α) (h : ∀ x ∈ l, f x = x) :
    l.map f = l := by
  induction l with
  | nil => rfl
  | cons x l ih =>
    rw [List.map_cons, h x (List.mem_cons_self x l),
      ih (fun y hy => h y (List.mem_cons_of_mem x hy))]

theorem awardValue_of_none {g : Guess} (hr : g.rating = none) (pid : String) :
    awardValue g pid = 0 := by
  unfold awardValue
  rw [hr]
  by_cases hp : (g.guesserId == pid) = true <;> simp [hp]

theorem awardPoints_eq (db : DB) (g : Guess) :
    awardPoints db g = { db with players := db.players.map (fun p =>
      { p with totalScore := p.totalScore + awardValue g p.id }) } := by
  cases hr : g.rating with
  | none =>
    have hmap : db.players.map (fun p =>
        ({ p with totalScore := p.totalScore + awardValue g p.id } : Player)) =
        db.players :=
      map_id_of_eq _ _ (fun p _ => by rw [awardValue_of_none hr, player_add_zero])
    show awardPoints db g = _
    rw [hmap]
    unfold awardPoints
    simp only [hr]
  | some q =>
    by_cases hq : q ≠ 0
    · show awardPoints db g = _
      unfold awardPoints
      simp only [hr]
      rw [if_pos hq]
      show ({ db with players := _ } : DB) = _
      congr 1
      apply List.map_congr_left
      intro p _
      have hav : awardValue g p.id = if (p.id == g.guesserId) = true then q else 0 := by
        unfold awardValue
        simp only [hr]
        rw [beq_comm_str g.guesserId p.id, if_pos hq]
      rw [hav]
      by_cases hp : (p.id == g.guesserId) = true
      · rw [if_pos hp, if_pos hp]
      · rw [if_neg hp, if_neg hp, player_add_zero]
    · push_neg at hq
      have hmap : db.players.map (fun p =>
          ({ p with totalScore := p.totalScore + awardValue g p.id } : Player)) =
          db.players :=
        map_id_of_eq _ _ (fun p _ => by
          have h0 : awardValue g p.id = 0 := by
            unfold awardValue
            rw [hr]
            by_cases hp : (g.guesserId == p.id) = true <;> simp [hp, hq]
          rw [h0, player_add_zero])
      show awardPoints db g = _
      rw [hmap]
      unfold awardPoints
      simp only [hr]
      rw [if_neg (by simp [hq])]
theorem awardSum_nil (pid : String) : awardSum [] pid = 0 := rfl

theorem awardSum_cons (g : Guess) (gs : List Guess) (pid : String) :
    awardSum (g :: gs) pid = awardValue g pid + awardSum gs pid := by
  unfold awardSum
  rw [List.map_cons, List.sum_cons]

theorem awardFold_eq : ∀ (gs : List Guess) (db : DB),
    gs.foldl awardPoints db = { db with players := db.players.map (fun p =>
      { p with totalScore := p.totalScore + awardSum gs p.id }) } := by
  intro gs
  induction gs with
  | nil =>
    intro db
    have hmap : db.players.map (fun p =>
        ({ p with totalScore := p.totalScore + awardSum [] p.id } : Player)) =
        db.players :=
      map_id_of_eq _ _ (fun p _ => by rw [awardSum_nil, player_add_zero])
    show db = _
    rw [hmap]
  | cons g gs ih =>
    intro db
    rw [List.foldl_cons, awardPoints_eq, ih]
    show ({ db with players := _ } : DB) = _
    congr 1
    rw [List.map_map]
    apply List.map_congr_left
    intro p _
    simp only [Function.comp]
    show ({ { p with totalScore := p.totalScore + awardValue g p.id } with
        totalScore := (p.totalScore + awardValue g p.id) +
          awardSum gs ({ p with totalScore := p.totalScore + awardValue g p.id } : Player).id } : Player) = _
    rw [awardSum_cons]
    cases p
    simp only
    rw [add_assoc]
theorem startAIRating_not_found (judge : JudgeOracle) (now : Nat) (db : DB) (gameId : String)
    (h : firstWhere (fun gm => gm.id == gameId) db.games = none) :
    startAIRating judge now db gameId = db := by
  unfold startAIRating
  simp only [h]

theorem startAIRating_guesses_eq (judge : JudgeOracle) (now : Nat) (db : DB)
    (gameId : String) (game : Game)
    (hg : firstWhere (fun gm => gm.id == gameId) db.games = some game)
    (hN : (db.guesses.map Guess.id).Nodup) :
    (startAIRating judge now db gameId).guesses = db.guesses.map (fun x =>
      if x.gameId == gameId then
        rateWrite judge now gameId game.question db.answers x x
      else x) := by
  rw [startAIRating_guesses_shape judge now db gameId game hg]
  apply List.map_congr_left
  intro x hx
  by_cases hb : (x.gameId == gameId) = true
  · rw [lastIdMatch_filter_self hN hx hb, if_pos hb]
  · rw [lastIdMatch_filter_not hN hx ((Bool.not_eq_true _).mp hb), if_neg hb]

theorem startAIRating_guessIds (judge : JudgeOracle) (now : Nat) (db : DB)
    (gameId : String) :
    (startAIRating judge now db gameId).guesses.map Guess.id =
      db.guesses.map Guess.id := by
  cases hg : firstWhere (fun gm => gm.id == gameId) db.games with
  | none => rw [startAIRating_not_found judge now db gameId hg]
  | some game =>
    rw [startAIRating_guesses_shape judge now db gameId game hg, List.map_map]
    apply List.map_congr_left
    intro x _
    simp only [Function.comp]
    cases lastIdMatch (db.guesses.filter (fun g => g.gameId == gameId)) x.id <;> rfl

theorem startAIRating_players_eq (judge : JudgeOracle) (now : Nat) (db : DB)
    (gameId : String) (game : Game)
    (hg : firstWhere (fun gm => gm.id == gameId) db.games = some game)
    (hN : (db.guesses.map Guess.id).Nodup) :
    (startAIRating judge now db gameId).players = db.players.map (fun p =>
      { p with totalScore := p.totalScore +
          awardSum ((db.guesses.filter (fun g => g.gameId == gameId)).map
            (fun x => rateWrite judge now gameId game.question db.answers x x)) p.id }) := by
  unfold startAIRating
  simp only [hg]
  rw [awardFold_eq]
  simp only
  rw [(rateFold_components judge now gameId game.question
    (db.guesses.filter (fun g => g.gameId == gameId)) db).2.1]
  have hone : ((db.guesses.filter (fun g => g.gameId == gameId)).foldl
      (rateOneGuess judge now gameId game.question) db).guesses.filter
        (fun g => g.gameId == gameId) =
      (db.guesses.filter (fun g => g.gameId == gameId)).map
        (fun x => rateWrite judge now gameId game.question db.answers x x) := by
    have hsh : ((db.guesses.filter (fun g => g.gameId == gameId)).foldl
        (rateOneGuess judge now gameId game.question) db).guesses =
        (startAIRating judge now db gameId).guesses := by
      unfold startAIRating
      simp only [hg]
      rw [(awardFold_components _ _).2.2.2]
    rw [hsh, startAIRating_guesses_eq judge now db gameId game hg hN, List.filter_map]
    have hfc : db.guesses.filter ((fun g => g.gameId == gameId) ∘ (fun x =>
        if x.gameId == gameId then
          rateWrite judge now gameId game.question db.answers x x
        else x)) = db.guesses.filter (fun g => g.gameId == gameId) := by
      apply List.filter_congr
      intro x _
      simp only [Function.comp]
      by_cases hb : (x.gameId == gameId) = true
      · rw [if_pos hb]
        exact rfl
      · rw [if_neg hb]
    rw [hfc]
    apply List.map_congr_left
    intro x hx
    rw [if_pos (List.mem_filter.mp hx).2]
  rw [hone]
theorem startAIRating_found_preserved (judge : JudgeOracle) (now : Nat) (db : DB)
    (gameId gid' : String) (gm' : Game)
    (h : firstWhere (fun gm => gm.id == gid') db.games = some gm') :
    ∃ gm2, firstWhere (fun gm => gm.id == gid')
      (startAIRating judge now db gameId).games = some gm2 := by
  cases hg : firstWhere (fun gm => gm.id == gameId) db.games with
  | none =>
    rw [startAIRating_not_found judge now db gameId hg]
    exact ⟨gm', h⟩
  | some game =>
    rw [startAIRating_games_eq judge now db gameId game hg]
    refine ⟨_, firstWhere_map_found _ _ _ _ ?_ h⟩
    intro y
    by_cases hy : (y.id == gameId) = true <;> simp [hy]

theorem startAIRating_guesses_pointwise (judge : JudgeOracle) (now : Nat) (db : DB)
    (gameId : String) (hN : (db.guesses.map Guess.id).Nodup) :
    ∀ (j : Nat) (x : Guess), db.guesses[j]? = some x →
      ∃ x', (startAIRating judge now db gameId).guesses[j]? = some x' ∧
        x'.id = x.id ∧ x'.guesserId = x.guesserId ∧ x'.gameId = x.gameId ∧
        ((x.gameId == gameId) = false → x' = x) ∧
        ((x.gameId == gameId) = true →
          ∀ game, firstWhere (fun gm => gm.id == gameId) db.games = some game →
          x' = rateWrite judge now gameId game.question db.answers x x) := by
  intro j x hj
  cases hg : firstWhere (fun gm => gm.id == gameId) db.games with
  | none =>
    rw [startAIRating_not_found judge now db gameId hg]
    refine ⟨x, hj, rfl, rfl, rfl, fun _ => rfl, ?_⟩
    intro _ game hgame
    cases hgame
  | some game =>
    rw [startAIRating_guesses_eq judge now db gameId game hg hN]
    rw [List.getElem?_map, hj]
    by_cases hb : (x.gameId == gameId) = true
    · refine ⟨rateWrite judge now gameId game.question db.answers x x, ?_, rfl, rfl, rfl, ?_, ?_⟩
      · simp only [Option.map_some']
        rw [if_pos hb]
      · intro hfalse
        rw [hb] at hfalse
        cases hfalse
      · intro _ game2 hgame2
        cases hgame2
        rfl
    · refine ⟨x, ?_, rfl, rfl, rfl, fun _ => rfl, ?_⟩
      · simp only [Option.map_some']
        rw [if_neg hb]
      · intro htrue
        exact absurd htrue hb
theorem runRounds_guessIds (judge : JudgeOracle) (now : Nat) :
    ∀ (gids : List String) (db : DB),
      (runRounds judge now db gids).guesses.map Guess.id = db.guesses.map Guess.id := by
  intro gids
  induction gids with
  | nil => intro db; rfl
  | cons gid rest ih =>
    intro db
    show (runRounds judge now (startAIRating judge now db gid) rest).guesses.map Guess.id = _
    rw [ih (startAIRating judge now db gid), startAIRating_guessIds]

theorem runRounds_guesses_pointwise (judge : JudgeOracle) (now : Nat) :
    ∀ (gids : List String) (db : DB), (db.guesses.map Guess.id).Nodup →
      ∀ (j : Nat) (x : Guess), db.guesses[j]? = some x →
        ∃ x', (runRounds judge now db gids).guesses[j]? = some x' ∧
          x'.id = x.id ∧ x'.guesserId = x.guesserId ∧ x'.gameId = x.gameId ∧
          (gids.contains x.gameId = false → x' = x) := by
  intro gids
  induction gids with
  | nil =>
    intro db _ j x hj
    exact ⟨x, hj, rfl, rfl, rfl, fun _ => rfl⟩
  | cons gid rest ih =>
    intro db hN j x hj
    obtain ⟨x1, hx1, hid1, hgsr1, hgm1, hun1, _⟩ :=
      startAIRating_guesses_pointwise judge now db gid hN j x hj
    have hN1 : ((startAIRating judge now db gid).guesses.map Guess.id).Nodup := by
      rw [startAIRating_guessIds]
      exact hN
    obtain ⟨x', hx', hid', hgsr', hgm', hun'⟩ :=
      ih (startAIRating judge now db gid) hN1 j x1 hx1
    refine ⟨x', hx', hid'.trans hid1, hgsr'.trans hgsr1, hgm'.trans hgm1, ?_⟩
    intro hc
    rw [List.contains_cons, Bool.or_eq_false_iff] at hc
    have hx1x : x1 = x := hun1 hc.1
    rw [hun' (by rw [hgm1]; exact hc.2), hx1x]
theorem sum_filter_eq_sum_map {α : Type} (P : α → Bool) (f : α → ℚ) (l : List α) :
    ((l.filter P).map f).sum = (l.map (fun x => if P x then f x else 0)).sum := by
  induction l with
  | nil => rfl
  | cons x l ih =>
    by_cases hx : P x = true
    · rw [List.filter_cons_of_pos hx, List.map_cons, List.sum_cons, List.map_cons,
        List.sum_cons, if_pos hx, ih]
    · rw [List.filter_cons_of_neg (by simpa using hx), List.map_cons, List.sum_cons,
        if_neg hx, ih, zero_add]

theorem sum_map_add {α : Type} (f g : α → ℚ) (l : List α) :
    (l.map (fun x => f x + g x)).sum = (l.map f).sum + (l.map g).sum := by
  induction l with
  | nil => simp
  | cons x l ih =>
    simp only [List.map_cons, List.sum_cons, ih]
    ring

theorem sum_map_eq_of_pointwise (L M : List Guess) (f : Guess → ℚ)
    (hlen : M.length = L.length)
    (hpt : ∀ (j : Nat) (x : Guess), L[j]? = some x →
      ∃ x', M[j]? = some x' ∧ f x' = f x) :
    (M.map f).sum = (L.map f).sum := by
  have : M.map f = L.map f := by
    apply List.ext_getElem?
    intro j
    rw [List.getElem?_map, List.getElem?_map]
    cases hj : L[j]? with
    | some x =>
      obtain ⟨x', hx', hfx⟩ := hpt j x hj
      rw [hx']
      simp only [Option.map_some']
      rw [hfx]
    | none =>
      have hjL : L.length ≤ j := by
        by_contra hlt
        push_neg at hlt
        rw [List.getElem?_eq_getElem hlt] at hj
        cases hj
      have : M[j]? = none := List.getElem?_eq_none (hlen ▸ hjL)
      rw [this]
  rw [this]
theorem ratingSumFor_eq_sum_map (db : DB) (pid : String) (gids : List String) :
    ratingSumFor db pid gids = (db.guesses.map (fun g =>
      if g.guesserId == pid && gids.contains g.gameId then g.rating.getD 0 else 0)).sum := by
  unfold ratingSumFor
  exact sum_filter_eq_sum_map _ _ _

theorem ratingSumFor_cons (db : DB) (pid gid : String) (rest : List String)
    (hnd : rest.contains gid = false) :
    ratingSumFor db pid (gid :: rest) =
      ratingSumFor db pid [gid] + ratingSumFor db pid rest := by
  rw [ratingSumFor_eq_sum_map, ratingSumFor_eq_sum_map, ratingSumFor_eq_sum_map,
    ← sum_map_add]
  apply congrArg
  apply List.map_congr_left
  intro g _
  by_cases hgss : (g.guesserId == pid) = true
  · by_cases h1 : (g.gameId == gid) = true
    · have h2 : rest.contains g.gameId = false := by
        rw [eq_of_beq h1]
        exact hnd
      have he : g.gameId = gid := eq_of_beq h1
      have hm : g.gameId ∉ rest := by simpa using h2
      rw [he] at hm
      simp [List.contains_cons, hgss, he, hm]
    · have hne : g.gameId ≠ gid := by simpa using h1
      simp [List.contains_cons, hgss, hne]
  · simp [hgss]

theorem awardSum_eq_ratingSumFor (judge : JudgeOracle) (now : Nat) (db : DB)
    (gid : String) (game : Game)
    (hg : firstWhere (fun gm => gm.id == gid) db.games = some game)
    (hN : (db.guesses.map Guess.id).Nodup) (pid : String) :
    awardSum ((db.guesses.filter (fun g => g.gameId == gid)).map
      (fun x => rateWrite judge now gid game.question db.answers x x)) pid =
    ratingSumFor (startAIRating judge now db gid) pid [gid] := by
  rw [ratingSumFor_eq_sum_map, startAIRating_guesses_eq judge now db gid game hg hN]
  unfold awardSum
  rw [List.map_map, List.map_map, sum_filter_eq_sum_map]
  apply congrArg
  apply List.map_congr_left
  intro x _
  simp only [Function.comp]
  by_cases h1 : (x.gameId == gid) = true
  · rw [if_pos h1, if_pos h1]
    by_cases hgss : (x.guesserId == pid) = true
    · have hcond : ((rateWrite judge now gid game.question db.answers x x).guesserId == pid &&
          [gid].contains (rateWrite judge now gid game.question db.answers x x).gameId) =
          true := by
        show (x.guesserId == pid && [gid].contains x.gameId) = true
        simp [hgss, List.contains_cons, eq_of_beq h1]
      rw [if_pos hcond]
      show awardValue (rateWrite judge now gid game.question db.answers x x) pid = _
      unfold awardValue
      have hgss2 : ((rateWrite judge now gid game.question db.answers x x).guesserId == pid) =
          true := hgss
      rw [if_pos hgss2]
      have hv := (ratingValueFor_bounds judge gid game.question db.answers x).1
      have hvne : ratingValueFor judge gid game.question db.answers x ≠ 0 := by
        intro h0
        rw [h0] at hv
        norm_num at hv
      show (if ratingValueFor judge gid game.question db.answers x ≠ 0 then
        ratingValueFor judge gid game.question db.answers x else 0) = _
      rw [if_pos hvne]
      rfl
    · have hcond : ((rateWrite judge now gid game.question db.answers x x).guesserId == pid &&
          [gid].contains (rateWrite judge now gid game.question db.answers x x).gameId) =
          false := by
        show (x.guesserId == pid && [gid].contains x.gameId) = false
        simp [hgss]
      rw [if_neg (by rw [hcond]; exact Bool.false_ne_true)]
      show awardValue (rateWrite judge now gid game.question db.answers x x) pid = 0
      unfold awardValue
      have hgss2 : ((rateWrite judge now gid game.question db.answers x x).guesserId ==
          pid) = false := by
        show (x.guesserId == pid) = false
        exact (Bool.not_eq_true _).mp hgss
      rw [if_neg (by rw [hgss2]; exact Bool.false_ne_true)]
  · rw [if_neg h1, if_neg h1]
    have hcond : (x.guesserId == pid && [gid].contains x.gameId) = false := by
      have hne : x.gameId ≠ gid := by simpa using h1
      simp [List.contains_cons, hne]
    rw [if_neg (by rw [hcond]; exact Bool.false_ne_true)]
theorem ratingSumFor_frame (judge : JudgeOracle) (now : Nat) (db : DB)
    (rest : List String) (pid gid : String)
    (hN : (db.guesses.map Guess.id).Nodup) (hnd : rest.contains gid = false) :
    ratingSumFor (runRounds judge now db rest) pid [gid] =
      ratingSumFor db pid [gid] := by
  rw [ratingSumFor_eq_sum_map, ratingSumFor_eq_sum_map]
  apply sum_map_eq_of_pointwise
  · have := congrArg List.length (runRounds_guessIds judge now rest db)
    simpa using this
  · intro j x hj
    obtain ⟨x', hx', _, hgsr, hgm, hun⟩ :=
      runRounds_guesses_pointwise judge now rest db hN j x hj
    refine ⟨x', hx', ?_⟩
    by_cases hc : (x.guesserId == pid && [gid].contains x.gameId) = true
    · have hgid : x.gameId = gid := by
        have h2 := ((Bool.and_eq_true _ _).mp hc).2
        simp [List.contains_cons] at h2
        exact h2
      rw [hun (by rw [hgid]; exact hnd)]
    · have hc' : (x'.guesserId == pid && [gid].contains x'.gameId) = false := by
        rw [hgsr, hgm]
        exact (Bool.not_eq_true _).mp hc
      rw [if_neg (by rw [hc']; exact Bool.false_ne_true),
        if_neg (by rw [(Bool.not_eq_true _).mp hc]; exact Bool.false_ne_true)]

theorem ratingSumFor_nil (db : DB) (pid : String) : ratingSumFor db pid [] = 0 := by
  unfold ratingSumFor
  have : db.guesses.filter (fun g => g.guesserId == pid && ([] : List String).contains
      g.gameId) = [] := by
    apply List.filter_eq_nil_iff.mpr
    intro g _
    simp [List.contains]
  rw [this]
  rfl

/-- C4: running the rating orchestrator once for each of a list of distinct
existing rounds accumulates onto (never replaces) each player's previous
total: the final `totalScore` equals the previous total plus the sum of the
stored ratings of all guesses the player authored in those rounds; starting
from 0 it equals that sum. -/
theorem C4_score_accumulation (judge : JudgeOracle) (now : Nat) :
    ∀ (gids : List String) (db : DB),
      (db.guesses.map Guess.id).Nodup →
      gids.Nodup →
      (∀ gid ∈ gids, ∃ gm, firstWhere (fun g => g.id == gid) db.games = some gm) →
      ∀ (j : Nat) (p : Player), db.players[j]? = some p →
        ∃ p', (runRounds judge now db gids).players[j]? = some p' ∧ p'.id = p.id ∧
          p'.totalScore = p.totalScore +
            ratingSumFor (runRounds judge now db gids) p.id gids := by
  intro gids
  induction gids with
  | nil =>
    intro db _ _ _ j p hp
    refine ⟨p, hp, rfl, ?_⟩
    rw [ratingSumFor_nil, add_zero]
  | cons gid rest ih =>
    intro db hN hGids hEx j p hp
    obtain ⟨game, hg⟩ := hEx gid (List.mem_cons_self gid rest)
    have hrun : runRounds judge now db (gid :: rest) =
        runRounds judge now (startAIRating judge now db gid) rest := rfl
    have hp1 : (startAIRating judge now db gid).players[j]? = some
        { p with totalScore := p.totalScore +
            awardSum ((db.guesses.filter (fun g => g.gameId == gid)).map
              (fun x => rateWrite judge now gid game.question db.answers x x)) p.id } := by
      rw [startAIRating_players_eq judge now db gid game hg hN, List.getElem?_map, hp]
      rfl
    have hN1 : ((startAIRating judge now db gid).guesses.map Guess.id).Nodup := by
      rw [startAIRating_guessIds]
      exact hN
    have hGids1 : rest.Nodup := (List.nodup_cons.mp hGids).2
    have hndc : rest.contains gid = false := by
      have := (List.nodup_cons.mp hGids).1
      simpa using this
    have hEx1 : ∀ gid' ∈ rest, ∃ gm, firstWhere (fun g => g.id == gid')
        (startAIRating judge now db gid).games = some gm := by
      intro gid' hmem
      obtain ⟨gm', hgm'⟩ := hEx gid' (List.mem_cons_of_mem gid hmem)
      exact startAIRating_found_preserved judge now db gid gid' gm' hgm'
    obtain ⟨p', hp', hid', hscore'⟩ := ih (startAIRating judge now db gid) hN1 hGids1 hEx1
      j _ hp1
    refine ⟨p', by rw [hrun]; exact hp', hid', ?_⟩
    rw [hrun]
    rw [hscore']
    show (p.totalScore + _) + _ = _
    rw [awardSum_eq_ratingSumFor judge now db gid game hg hN p.id]
    rw [← ratingSumFor_frame judge now (startAIRating judge now db gid) rest p.id gid
      hN1 hndc]
    rw [ratingSumFor_cons _ _ _ _ hndc]
    rw [add_assoc]

/-- Witness for C4 at the concrete zero-score mid-round state. -/
theorem C4_witness :
    ∃ p', (runRounds exJudge 100 exDBZero ["g1"]).players[0]? = some p' ∧
      p'.id = "p1" ∧
      p'.totalScore = 0 +
        ratingSumFor (runRounds exJudge 100 exDBZero ["g1"]) "p1" ["g1"] :=
  C4_score_accumulation exJudge 100 ["g1"] exDBZero (by decide) (by decide)
    (by
      intro gid hmem
      simp only [List.mem_singleton] at hmem
      subst hmem
      exact ⟨exGameAnswering, rfl⟩)
    0 { exP1 with totalScore := 0 } rfl

theorem findIdx?_pred {α : Type} (p : α → Bool) (l : List α) (i : Nat)
    (h : l.findIdx? p = some i) :
    ∃ hlt : i < l.length, p (l.get ⟨i, hlt⟩) = true := by
  obtain ⟨hlt, hfi⟩ := List.findIdx?_eq_some_iff_findIdx_eq.mp h
  refine ⟨hlt, ?_⟩
  have := List.findIdx_getElem (w := hfi ▸ hlt)
  simpa [hfi] using this

theorem insertById_perm (p : Player) : ∀ (l : List Player),
    List.Perm (insertById p l) (p :: l) := by
  intro l
  induction l with
  | nil => exact List.Perm.refl _
  | cons q qs ih =>
    unfold insertById
    by_cases h : strLt q.id p.id = true
    · rw [if_pos h]
      exact (ih.cons q).trans (List.Perm.swap p q qs)
    · rw [if_neg h]

theorem sortById_perm : ∀ (l : List Player), List.Perm (sortById l) l := by
  intro l
  induction l with
  | nil => exact List.Perm.refl _
  | cons p ps ih =>
    unfold sortById
    exact (insertById_perm p (sortById ps)).trans (ih.cons p)

theorem insertString_map_id (p : Player) : ∀ (l : List Player),
    insertString p.id (l.map Player.id) = (insertById p l).map Player.id := by
  intro l
  induction l with
  | nil => rfl
  | cons q qs ih =>
    show insertString p.id (q.id :: qs.map Player.id) = _
    unfold insertString insertById
    by_cases h : strLt q.id p.id = true
    · rw [if_pos h, if_pos h, List.map_cons, ih]
    · rw [if_neg h, if_neg h]
      rfl

theorem sortStrings_map_id : ∀ (l : List Player),
    sortStrings (l.map Player.id) = (sortById l).map Player.id := by
  intro l
  induction l with
  | nil => rfl
  | cons p ps ih =>
    show insertString p.id (sortStrings (ps.map Player.id)) = _
    rw [ih, insertString_map_id]
    rfl
theorem findIdx?_map_aux {α β : Type} (q : β → Bool) (f : α → β) :
    ∀ (l : List α) (s : Nat),
      List.findIdx? q (l.map f) s = List.findIdx? (fun x => q (f x)) l s := by
  intro l
  induction l with
  | nil => intro s; rfl
  | cons x xs ih =>
    intro s
    show List.findIdx? q (f x :: xs.map f) s = _
    unfold List.findIdx?
    by_cases h : q (f x) = true
    · rw [if_pos h, if_pos h]
    · rw [if_neg h, if_neg h, ih]

theorem guessIndex_ne_lt (i n r : Nat) (h2 : 2 ≤ n) (hi : i < n) :
    (if ((i + r % n) % n == i) = true then (i + 1) % n else (i + r % n) % n) ≠ i ∧
    (if ((i + r % n) % n == i) = true then (i + 1) % n else (i + r % n) % n) < n := by
  have hn0 : 0 < n := by omega
  by_cases ht : (((i + r % n) % n) == i) = true
  · rw [if_pos ht]
    constructor
    · by_cases hin : i + 1 < n
      · rw [Nat.mod_eq_of_lt hin]
        omega
      · have hone : i + 1 = n := by omega
        rw [hone, Nat.mod_self]
        omega
    · exact Nat.mod_lt _ hn0
  · rw [if_neg ht]
    constructor
    · simpa using ht
    · exact Nat.mod_lt _ hn0
theorem nodup_id_getElem_eq {SP : List Player} (hNSP : (SP.map Player.id).Nodup)
    (f i : Nat) (hf : f < SP.length) (hi : i < SP.length)
    (hid : SP[f].id = SP[i].id) : f = i := by
  have hfm : f < (SP.map Player.id).length := by
    rw [List.length_map]
    exact hf
  have him : i < (SP.map Player.id).length := by
    rw [List.length_map]
    exact hi
  have : (SP.map Player.id)[f] = (SP.map Player.id)[i] := by
    rw [List.getElem_map, List.getElem_map]
    exact hid
  exact (List.Nodup.getElem_inj_iff hNSP).mp this

/-- C3: `getGuessTarget` returns `none` when the room has fewer than two
players; otherwise, for the caller at index `i` of the id-sorted player list
of length `n`, it returns the player at index `(i + round % n) % n`, replaced
by `(i + 1) % n` when that index equals `i`; it never returns the caller's own
id (given distinct player ids), is deterministic, and its result is a pure
function of the sorted player ids, the round number and the caller id
(clause five equates it with `specGuessTargetOfIds` on exactly those inputs). -/
theorem C3_guess_target (db : DB) (gameId playerId : String) (game : Game)
    (hg : firstWhere (fun gm => gm.id == gameId) db.games = some game) :
    ∀ RP SP n, RP = db.players.filter (fun p => p.roomId == game.roomId) →
      SP = sortById RP → n = SP.length →
      ((RP.length < 2 → getGuessTarget db gameId playerId = none) ∧
       (getGuessTarget db gameId playerId = getGuessTarget db gameId playerId) ∧
       (¬ RP.length < 2 →
         ∀ i, SP.findIdx? (fun p => p.id == playerId) = some i →
         ∃ tp, SP[(if ((i + game.round % n) % n == i) = true then (i + 1) % n
             else (i + game.round % n) % n)]? = some tp ∧
           getGuessTarget db gameId playerId = some (tp.id, tp.name)) ∧
       ((db.players.map Player.id).Nodup →
         ∀ t, getGuessTarget db gameId playerId = some t → t.1 ≠ playerId) ∧
       ((getGuessTarget db gameId playerId).map Prod.fst =
         specGuessTargetOfIds (sortStrings (RP.map Player.id)) game.round playerId)) := by
  intro RP SP n hRP hSP hn
  subst hRP
  subst hSP
  subst hn
  have hlen : (sortById (db.players.filter (fun p => p.roomId == game.roomId))).length =
      (db.players.filter (fun p => p.roomId == game.roomId)).length :=
    (sortById_perm _).length_eq
  refine ⟨?_, rfl, ?_, ?_, ?_⟩
  · intro hlt
    unfold getGuessTarget
    simp only [hg]
    rw [if_pos hlt]
  · intro hlt i hfind
    unfold getGuessTarget
    simp only [hg]
    rw [if_neg hlt]
    simp only [hfind]
    obtain ⟨hi, hpi⟩ := findIdx?_pred _ _ _ hfind
    have h2 : 2 ≤ (sortById (db.players.filter (fun p => p.roomId == game.roomId))).length := by
      rw [hlen]
      omega
    obtain ⟨hne, hflt⟩ := guessIndex_ne_lt i _ game.round h2 hi
    rw [List.getElem?_eq_getElem hflt]
    exact ⟨_, rfl, rfl⟩
  · intro hN t hres
    unfold getGuessTarget at hres
    simp only [hg] at hres
    by_cases hlt : (db.players.filter (fun p => p.roomId == game.roomId)).length < 2
    · rw [if_pos hlt] at hres
      cases hres
    rw [if_neg hlt] at hres
    cases hfind : (sortById (db.players.filter (fun p =>
        p.roomId == game.roomId))).findIdx? (fun p => p.id == playerId) with
    | none =>
      rw [hfind] at hres
      cases hres
    | some i =>
      simp only [hfind] at hres
      obtain ⟨hi, hpi⟩ := findIdx?_pred _ _ _ hfind
      have h2 : 2 ≤ (sortById (db.players.filter (fun p =>
          p.roomId == game.roomId))).length := by
        rw [hlen]
        omega
      obtain ⟨hne, hflt⟩ := guessIndex_ne_lt i _ game.round h2 hi
      rw [List.getElem?_eq_getElem hflt] at hres
      simp only [Option.some.injEq] at hres
      subst hres
      have hNRP : ((db.players.filter (fun p => p.roomId == game.roomId)).map
          Player.id).Nodup :=
        List.Nodup.sublist (List.Sublist.map Player.id (List.filter_sublist _)) hN
      have hNSP : ((sortById (db.players.filter (fun p =>
          p.roomId == game.roomId))).map Player.id).Nodup :=
        (((sortById_perm _).map Player.id).nodup_iff).mpr hNRP
      have hiid : (sortById (db.players.filter (fun p =>
          p.roomId == game.roomId)))[i].id = playerId := by
        have := beq_str hpi
        simpa using this
      intro hcon
      apply hne
      refine nodup_id_getElem_eq hNSP _ i hflt hi ?_
      rw [hiid]
      exact hcon
  · unfold getGuessTarget specGuessTargetOfIds
    simp only [hg]
    rw [sortStrings_map_id]
    have hlm : ((sortById (db.players.filter (fun p => p.roomId == game.roomId))).map
        Player.id).length =
        (sortById (db.players.filter (fun p => p.roomId == game.roomId))).length :=
      List.length_map _ _
    by_cases hlt : (db.players.filter (fun p => p.roomId == game.roomId)).length < 2
    · rw [if_pos hlt, if_pos (by rw [hlm, hlen]; exact hlt)]
      rfl
    · rw [if_neg hlt, if_neg (by rw [hlm, hlen]; exact hlt)]
      rw [findIdx?_map_aux]
      cases hfind : (sortById (db.players.filter (fun p =>
          p.roomId == game.roomId))).findIdx? (fun p => p.id == playerId) with
      | none =>
        simp only [hfind]
        rfl
      | some i =>
        simp only [hfind]
        obtain ⟨hi, _⟩ := findIdx?_pred _ _ _ hfind
        have h2 : 2 ≤ (sortById (db.players.filter (fun p =>
            p.roomId == game.roomId))).length := by
          rw [hlen]
          omega
        obtain ⟨hne, hflt⟩ := guessIndex_ne_lt i _ game.round h2 hi
        rw [List.getElem?_eq_getElem hflt, hlm, List.getElem?_map,
          List.getElem?_eq_getElem hflt]
        rfl
theorem C3_witness :
    getGuessTarget exDB3 "g1" "p1" = some ("p2", "Bob") ∧
    (∀ t, getGuessTarget exDB3 "g1" "p1" = some t → t.1 ≠ "p1") := by
  constructor
  · decide
  · exact (C3_guess_target exDB3 "g1" "p1" exGameAnswering rfl _ _ _ rfl rfl rfl).2.2.2.1
      (by decide)

/-! ### C5 — phase monotonicity -/

theorem rank_le_four (s : GameStatus) : s.rank ≤ 4 := by
  cases s <;> simp [GameStatus.rank]

theorem firstWhere_some_pred {α : Type} (p : α → Bool) (l : List α) (x : α)
    (h : firstWhere p l = some x) : p x = true := by
  have hm : x ∈ l.filter p := by
    unfold firstWhere at h
    cases hl : l.filter p with
    | nil => rw [hl] at h; cases h
    | cons a as =>
      rw [hl] at h
      simp at h
      rw [← h]
      exact List.mem_cons_self a as
  exact (List.mem_filter.mp hm).2

theorem games_frame {db db' : DB} (hgames : db'.games = db.games) :
    ∀ (i : Nat) (g : Game), db.games[i]? = some g →
      ∃ g' : Game, db'.games[i]? = some g' ∧ g'.id = g.id ∧
        g.status.rank ≤ g'.status.rank ∧
        (g'.status = GameStatus.completed →
          g.status = GameStatus.completed ∨ g'.endedAt.isSome = true) := by
  intro i g hi
  exact ⟨g, by rw [hgames]; exact hi, rfl, le_refl _, fun hc => Or.inl hc⟩

theorem games_append {db db' : DB} {new : List Game}
    (hgames : db'.games = db.games ++ new) :
    ∀ (i : Nat) (g : Game), db.games[i]? = some g →
      ∃ g' : Game, db'.games[i]? = some g' ∧ g'.id = g.id ∧
        g.status.rank ≤ g'.status.rank ∧
        (g'.status = GameStatus.completed →
          g.status = GameStatus.completed ∨ g'.endedAt.isSome = true) := by
  intro i g hi
  refine ⟨g, ?_, rfl, le_refl _, fun hc => Or.inl hc⟩
  obtain ⟨hlt, -⟩ := List.getElem?_eq_some.mp hi
  rw [hgames, List.getElem?_append, if_pos hlt]
  exact hi

/-- C5: under every successful core operation, each pre-existing game row
survives at its index with its id, its phase rank never decreases along
`active → answering → guessing → rating → completed`, and whenever the
operation moves a round's phase to `completed` the end timestamp is set. -/
theorem C5_phase_forward (op : Op) (db db' : DB)
    (h : applyOp op db = Except.ok db') :
    ∀ (i : Nat) (g : Game), db.games[i]? = some g →
      ∃ g' : Game, db'.games[i]? = some g' ∧ g'.id = g.id ∧
        g.status.rank ≤ g'.status.rank ∧
        (g'.status = GameStatus.completed →
          g.status = GameStatus.completed ∨ g'.endedAt.isSome = true) := by
  cases op with
  | create codes newRoomId newPlayerId now playerName sessionId country =>
    simp only [applyOp, roomCreate] at h
    repeat' split at h
    all_goals first
      | exact Except.noConfusion h
      | (injection h with h; subst h; exact games_frame rfl)
  | join newPlayerId now roomCode playerName sessionId country =>
    simp only [applyOp, roomJoin] at h
    repeat' split at h
    all_goals first
      | exact Except.noConfusion h
      | (injection h with h; subst h; exact games_frame rfl)
  | leave now playerId =>
    simp only [applyOp, roomLeave] at h
    repeat' split at h
    all_goals first
      | exact Except.noConfusion h
      | (injection h with h; subst h; exact games_frame rfl)
  | kick playerId kickerId =>
    simp only [applyOp, kickPlayer] at h
    repeat' split at h
    all_goals first
      | exact Except.noConfusion h
      | (injection h with h; subst h; exact games_frame rfl)
  | heartbeat now playerId =>
    simp only [applyOp, updatePlayerStatus] at h
    injection h with h
    subst h
    exact games_frame rfl
  | goOffline now playerId =>
    simp only [applyOp, markPlayerOffline] at h
    injection h with h
    subst h
    exact games_frame rfl
  | config now roomId playerId totalRounds roundTimeLimit initialPrompt =>
    simp only [applyOp, updateConfig] at h
    repeat' split at h
    all_goals first
      | exact Except.noConfusion h
      | (injection h with h; subst h; exact games_frame rfl)
  | start now roomId playerId =>
    simp only [applyOp, startGame] at h
    repeat' split at h
    all_goals first
      | exact Except.noConfusion h
      | (injection h with h; subst h; exact games_frame rfl)
  | currentGame genQuestion newGameId now roomId =>
    simp only [applyOp, getCurrentGame] at h
    repeat' split at h
    all_goals first
      | exact Except.noConfusion h
      | (injection h with h; subst h;
         first
          | exact games_frame rfl
          | exact games_append rfl)
  | answer now newId gameId playerId text submit =>
    simp only [applyOp, saveAnswer] at h
    repeat' split at h
    all_goals first
      | exact Except.noConfusion h
      | (injection h with h; subst h; exact games_frame rfl)
  | guess now newId gameId guesserId targetPlayerId text submit =>
    simp only [applyOp, saveGuess] at h
    repeat' split at h
    all_goals first
      | exact Except.noConfusion h
      | (injection h with h; subst h; exact games_frame rfl)
  | ready gameId playerId =>
    simp only [applyOp, readyForNextRound] at h
    repeat' split at h
    all_goals first
      | exact Except.noConfusion h
      | (injection h with h; subst h; exact games_frame rfl)
  | progress judge now gameId =>
    simp only [applyOp, checkGameProgress] at h
    split at h
    · exact Except.noConfusion h
    · rename_i game hg
      split at h
      · injection h with h
        subst h
        have hpg : (game.id == gameId) = true := firstWhere_some_pred (fun gm => gm.id == gameId) db.games game hg
        have hp : ∀ y : Game,
            (((if y.id == gameId then { y with status := GameStatus.rating } else y) :
              Game).id == gameId) = (y.id == gameId) := by
          intro y
          by_cases hb : (y.id == gameId) = true
          · rw [if_pos hb]
          · rw [if_neg hb]
        have h2 := firstWhere_map_found
          (fun gm => if gm.id == gameId then { gm with status := GameStatus.rating } else gm)
          (fun gm => gm.id == gameId) db.games game hp hg
        have hge : (startAIRating judge now
            ({ db with games := db.games.map (fun gm =>
              if gm.id == gameId then { gm with status := GameStatus.rating } else gm) })
            gameId).games =
            (db.games.map (fun gm =>
              if gm.id == gameId then { gm with status := GameStatus.rating } else gm)).map
            (fun gm => if gm.id == gameId
              then { gm with status := GameStatus.completed, endedAt := some now }
              else gm) :=
          startAIRating_games_eq judge now _ gameId _ h2
        intro i g hi
        by_cases hb : (g.id == gameId) = true
        · refine ⟨{ g with status := GameStatus.completed, endedAt := some now }, ?_, rfl,
            rank_le_four _, fun _ => Or.inr rfl⟩
          rw [hge, List.getElem?_map, List.getElem?_map, hi]
          simp only [Option.map_some']
          simp [hb]
        · refine ⟨g, ?_, rfl, le_refl _, fun hc => Or.inl hc⟩
          rw [hge, List.getElem?_map, List.getElem?_map, hi]
          simp only [Option.map_some']
          simp [hb]
      · injection h with h
        subst h
        exact games_frame rfl

/-- C5 witness: a heartbeat for an unknown player id succeeds and leaves the
database unchanged; the completed example game survives at index 0 with its
phase and id intact. -/
theorem C5_witness :
    ∃ g', exDBCompleted.games[0]? = some g' ∧ g'.id = exGameCompleted.id ∧
      exGameCompleted.status.rank ≤ g'.status.rank ∧
      (g'.status = GameStatus.completed →
        exGameCompleted.status = GameStatus.completed ∨ g'.endedAt.isSome = true) :=
  C5_phase_forward (Op.heartbeat 0 "zz") exDBCompleted exDBCompleted rfl 0 exGameCompleted rfl
